import Mathlib

/-!
Verification of the identity-resolution and account-merging subsystem of the
Process job-application tracker (FastAPI backend plus Discord bot).

The definitions below are a shallow embedding of:
  * src/api/auth.py        — registry lookups (get_user_by_email / username /
    discord_id / google_id), authenticate_user, merge_user_accounts;
  * src/api/routes/auth.py — login, discord_oauth_callback, link_discord_account,
    google_oauth_callback, get_discord_bot_token;
  * src/api/models.py      — the User / Process / Stage / Feedback tables and
    their UNIQUE constraints and delete cascades.

Modelling conventions.
  * The SQLAlchemy session is a `DB` record of row lists; a flow function takes
    the committed database and returns the database as committed at the end of
    the request together with the HTTP outcome.  Mutations followed by
    `db.commit()` are modelled as pure record updates; an exception raised
    before a commit leaves the last committed state, which is what the closed
    session persists.
  * `merge_user_accounts` commits twice (auth.py lines 238 and 242); both
    committed states are exposed (`mergeCommitted1`, `mergeCommits`).
  * Rows carry the columns the verified claims mention.  Timestamp columns
    (created_at, last_login, stage dates), display/privacy columns and the
    comment/upvote/guild tables are omitted: no claim refers to them.
  * api/models.py — the model module the API imports — declares the User class
    with no hashed_password column (lines 16-40), yet routes/auth.py line 710
    passes hashed_password=None to the constructor and api/auth.py line 113
    reads user.hashed_password.  Under the SQLAlchemy declarative base the
    constructor call raises TypeError (invalid keyword argument) and the
    attribute read raises AttributeError; `User` therefore carries no such
    column and those two statements are modelled as raising
    `PyExc.typeError` / `PyExc.attributeError`.  (bot/models.py declares the
    column, but it backs the separate bot module the API never imports.)
  * Python string lowering (str.lower / SQL lower) is modelled by
    `pyLower`; the identifiers appearing in the claims are ASCII.
  * Python truthiness of an optional string (None or "") is `pyFalsy`.
  * The UNIQUE constraints on users.discord_id / google_id / email
    (models.py lines 20-23) make a duplicating INSERT fail at commit with an
    IntegrityError and persist nothing; `insertUser` models this check.
  * FastAPI HTTPException is `PyExc.http status detail`; the other exceptions
    the modelled code can raise are `PyExc.integrityError`, `PyExc.typeError`
    and `PyExc.attributeError`.  The `except Exception` blocks of the two
    OAuth callbacks wrap every exception, HTTPException included, into a
    status-500 HTTPException; `link_discord_account` re-raises HTTPException
    unchanged (routes/auth.py lines 367-371, 475-481, 682-686); the bot-token
    and login routes have no try block, so an exception escaping them is
    answered by the framework default, HTTP 500 Internal Server Error.
-/

deriving instance DecidableEq for Except

namespace ProcessTracker

/-- ASCII lowering, modelling Python str.lower() / SQL lower() on the ASCII
identifiers the claims mention (character-list map, so that proofs can
evaluate it). -/
def pyLower (s : String) : String :=
  String.mk (s.data.map Char.toLower)

/-- User row: id plus the identity-key columns and username, the columns
api/models.py lines 16-30 declare that the claims mention.  api/models.py
declares no hashed_password column, so the row carries none. -/
structure User where
  id : Nat
  discord_id : Option String
  google_id : Option String
  email : Option String
  username : String
deriving Repr, DecidableEq

/-- Process row (models.py lines 43-54): owner, company_name (NOT NULL) and
nullable position. -/
structure Process where
  id : Nat
  user_id : Nat
  company_name : String
  position : Option String
deriving Repr, DecidableEq

/-- Stage row (models.py lines 64-74): owned by one process, cascade-deleted
with it. -/
structure Stage where
  id : Nat
  process_id : Nat
  stage_name : String
deriving Repr, DecidableEq

/-- Feedback row (models.py lines 83-94): nullable owner. -/
structure Feedback where
  id : Nat
  user_id : Option Nat
  message : String
deriving Repr, DecidableEq

/-- The relational store.  `nextUserId` models the autoincrement id the next
inserted user row receives. -/
structure DB where
  users : List User
  processes : List Process
  stages : List Stage
  feedback : List Feedback
  nextUserId : Nat
deriving Repr, DecidableEq

/-- Python truthiness test for an optional string: None and "" are falsy. -/
def pyFalsy : Option String → Bool
  | none => true
  | some s => s.isEmpty

/-- auth.py lines 71-77: case-insensitive email lookup; empty input returns
none, a NULL email column never matches. -/
def get_user_by_email (db : DB) (email : String) : Option User :=
  if email = "" then none
  else db.users.find? (fun u =>
    match u.email with
    | some e => pyLower e == pyLower email
    | none => false)

/-- auth.py lines 80-86: case-insensitive username lookup; empty input returns
none. -/
def get_user_by_username (db : DB) (username : String) : Option User :=
  if username = "" then none
  else db.users.find? (fun u => pyLower u.username == pyLower username)

/-- auth.py lines 89-91: exact match on the nullable discord_id column. -/
def get_user_by_discord_id (db : DB) (discord_id : String) : Option User :=
  db.users.find? (fun u => u.discord_id == some discord_id)

/-- auth.py lines 94-96: exact match on the nullable google_id column. -/
def get_user_by_google_id (db : DB) (google_id : String) : Option User :=
  db.users.find? (fun u => u.google_id == some google_id)

/-- db.query(User).filter(User.id == user_id).first() -/
def findUserById (db : DB) (uid : Nat) : Option User :=
  db.users.find? (fun u => u.id == uid)

/-! ### merge_user_accounts (auth.py lines 190-242) -/

/-- The lookup key auth.py line 210/215 computes for a process:
(company_name.lower(), position).  The position is used verbatim: no case
folding, no whitespace normalisation, None only equal to None. -/
def processKey (p : Process) : String × Option String :=
  (pyLower p.company_name, p.position)

/-- The target_processes_by_key dict (auth.py lines 208-211): built in list
order with overwrite on duplicate keys, so a lookup returns the last target
process carrying the key. -/
def targetWithKey (tps : List Process) (k : String × Option String) : Option Process :=
  (tps.filter (fun p => processKey p == k)).getLast?

/-- db.delete(process): the row goes away and its stages cascade
(models.py line 58). -/
def deleteProcess (db : DB) (pid : Nat) : DB :=
  { db with
    processes := db.processes.filter (fun p => p.id != pid),
    stages := db.stages.filter (fun s => s.process_id != pid) }

/-- process.user_id = newOwner on the row with the given id. -/
def setProcessOwner (db : DB) (pid newOwner : Nat) : DB :=
  { db with
    processes := db.processes.map (fun p =>
      if p.id = pid then { p with user_id := newOwner } else p) }

/-- One iteration of the for-loop of auth.py lines 213-230: if the source
process key is in the target dict, delete that target process (stages cascade)
and re-parent the source process, otherwise just re-parent it. -/
def mergeStep (tgtId : Nat) (tps : List Process) (acc : DB) (sp : Process) : DB :=
  match targetWithKey tps (processKey sp) with
  | some tp => setProcessOwner (deleteProcess acc tp.id) sp.id tgtId
  | none => setProcessOwner acc sp.id tgtId

/-- The for-loop of auth.py lines 213-230 over the snapshot of source
processes. -/
def mergeLoop (tgtId : Nat) (tps : List Process) : DB → List Process → DB
  | acc, [] => acc
  | acc, sp :: rest => mergeLoop tgtId tps (mergeStep tgtId tps acc sp) rest

/-- auth.py line 203: the source user's processes. -/
def sourceProcs (db : DB) (srcId : Nat) : List Process :=
  db.processes.filter (fun p => p.user_id == srcId)

/-- auth.py line 206: the target user's processes. -/
def targetProcs (db : DB) (tgtId : Nat) : List Process :=
  db.processes.filter (fun p => p.user_id == tgtId)

/-- auth.py lines 203-230: snapshot both process lists, then run the loop. -/
def mergeTransfers (db : DB) (src tgt : User) : DB :=
  mergeLoop tgt.id (targetProcs db tgt.id) db (sourceProcs db src.id)

/-- auth.py lines 233-235: re-parent every feedback row of the source. -/
def reparentFeedback (db : DB) (srcId tgtId : Nat) : DB :=
  { db with
    feedback := db.feedback.map (fun f =>
      if f.user_id == some srcId then { f with user_id := some tgtId } else f) }

/-- The state committed by auth.py line 238: transfers and feedback re-parent
done, source user still present. -/
def mergeCommitted1 (db : DB) (src tgt : User) : DB :=
  reparentFeedback (mergeTransfers db src tgt) src.id tgt.id

/-- db.delete(user) with the declared cascades (models.py lines 33-34):
processes still owned by the user go away with their stages, as does feedback
still owned by the user. -/
def deleteUser (db : DB) (uid : Nat) : DB :=
  let ownedPids := (db.processes.filter (fun p => p.user_id == uid)).map (fun p => p.id)
  { db with
    users := db.users.filter (fun u => u.id != uid),
    processes := db.processes.filter (fun p => p.user_id != uid),
    stages := db.stages.filter (fun s => !(ownedPids.contains s.process_id)),
    feedback := db.feedback.filter (fun f => f.user_id != some uid) }

/-- auth.py lines 190-242 end to end: the state after the second commit
(line 242). -/
def merge_user_accounts (db : DB) (src tgt : User) : DB :=
  deleteUser (mergeCommitted1 db src tgt) src.id

/-- The sequence of states merge_user_accounts persists: one commit at
auth.py line 238 and one at line 242. -/
def mergeCommits (db : DB) (src tgt : User) : List DB :=
  [mergeCommitted1 db src tgt, merge_user_accounts db src tgt]

/-! ### HTTP and exception model -/

/-- A FastAPI HTTPException as the client sees it. -/
structure HttpError where
  status : Nat
  detail : String
deriving Repr, DecidableEq

/-- An exception raised inside a handler: an HTTPException, the IntegrityError
a UNIQUE-violating commit raises, the TypeError the declarative constructor
raises for an undeclared keyword argument (routes/auth.py line 710), or the
AttributeError reading an undeclared column attribute raises (api/auth.py
line 113). -/
inductive PyExc where
  | http (status : Nat) (detail : String)
  | integrityError
  | typeError
  | attributeError
deriving Repr, DecidableEq

/-- str(e) as interpolated into the detail of the wrapping 500 error. -/
def pyExcMessage : PyExc → String
  | .http s d => toString s ++ ": " ++ d
  | .integrityError => "IntegrityError"
  | .typeError => "TypeError"
  | .attributeError => "AttributeError"

/-! ### Row-level write primitives -/

/-- Mutate the user row with the given id and commit. -/
def updateUserRow (db : DB) (uid : Nat) (f : User → User) : DB :=
  { db with users := db.users.map (fun u => if u.id = uid then f u else u) }

/-- Does inserting a row with these key columns violate a UNIQUE constraint of
the users table (models.py lines 20-23)?  NULLs never collide. -/
def violatesUnique (db : DB) (did gid em : Option String) : Bool :=
  db.users.any (fun u =>
    (did.isSome && u.discord_id == did) ||
    (gid.isSome && u.google_id == gid) ||
    (em.isSome && u.email == em))

/-- db.add(User(...)); db.commit(): on a UNIQUE violation the commit raises
IntegrityError and nothing is persisted, otherwise the row is stored with the
next autoincrement id. -/
def insertUser (db : DB) (did gid em : Option String) (un : String) : DB × Option User :=
  if violatesUnique db did gid em then (db, none)
  else
    let u : User :=
      { id := db.nextUserId, discord_id := did, google_id := gid,
        email := em, username := un }
    ({ db with users := db.users ++ [u], nextUserId := db.nextUserId + 1 }, some u)

/-! ### The field-update functions the flows commit -/

/-- if not user.username: user.username = username -/
def fillUsername (username : String) (u : User) : User :=
  if u.username = "" then { u with username := username } else u

/-- routes/auth.py lines 267-277 and 602-608: attach the provider id, adopt the
provider email only when none is set, restore the original email if it somehow
changed, fill an empty username.  `setPid` writes the provider-id column. -/
def explicitLinkUpdate (setPid : User → User) (username email : String)
    (origEmail : Option String) (u : User) : User :=
  let u1 := setPid u
  let u2 := if email ≠ "" ∧ pyFalsy u1.email then { u1 with email := some email } else u1
  let u3 := if ¬ pyFalsy origEmail ∧ u2.email ≠ origEmail then { u2 with email := origEmail } else u2
  fillUsername username u3

/-- routes/auth.py lines 460-468: like the explicit callback update but with no
username fill. -/
def linkDiscordUpdate (did email : String) (origEmail : Option String) (u : User) : User :=
  let u1 := { u with discord_id := some did }
  let u2 := if email ≠ "" ∧ pyFalsy u1.email then { u1 with email := some email } else u1
  if ¬ pyFalsy origEmail ∧ u2.email ≠ origEmail then { u2 with email := origEmail } else u2

/-- routes/auth.py lines 301-303 and 334-336: web account gains the discord id,
empty username filled. -/
def attachDiscordUpdate (did username : String) (u : User) : User :=
  fillUsername username { u with discord_id := some did }

/-- routes/auth.py lines 630-632 and 649-651: web account gains the google id,
empty username filled. -/
def attachGoogleUpdate (gid username : String) (u : User) : User :=
  fillUsername username { u with google_id := some gid }

/-- routes/auth.py lines 317-320: ghost-promotion writes the provider email
unconditionally, then fills an empty username. -/
def ghostPromoteUpdate (username email : String) (u : User) : User :=
  fillUsername username { u with email := some email }

/-- routes/auth.py lines 310-311: same-row branch adopts the email only when
none is set. -/
def sameRowEmailUpdate (email : String) (u : User) : User :=
  if pyFalsy u.email then { u with email := some email } else u

/-- routes/auth.py lines 641-644: the google account gains the email only when
none is set, empty username filled. -/
def googleNoEmailUserUpdate (username email : String) (u : User) : User :=
  fillUsername username
    (if email ≠ "" ∧ pyFalsy u.email then { u with email := some email } else u)

/-! ### discord_oauth_callback (routes/auth.py lines 164-371) -/

/-- Python `if user_id:` — a missing or zero state userId does not count as an
explicit target. -/
def explicitTarget (userId : Option Nat) : Bool :=
  userId.getD 0 != 0

/-- The try-block body of discord_oauth_callback from the point where the
provider profile (discord_id, username, email — "" when absent) and the parsed
state userId are in hand (routes/auth.py lines 225-354).  Returns the committed
database and either the id the session token is issued for or the exception
raised. -/
def discordCallbackInner (db : DB) (did username email : String)
    (userId : Option Nat) : DB × Except PyExc Nat :=
  let ghost_user := get_user_by_discord_id db did
  let web_user := if email ≠ "" then get_user_by_email db email else none
  if explicitTarget userId then
    let uid := userId.getD 0
    match findUserById db uid with
    | some user =>
      let origEmail := user.email
      let db1 :=
        match get_user_by_discord_id db did with
        | some edu => if edu.id ≠ user.id then merge_user_accounts db edu user else db
        | none => db
      let conflict :=
        if email ≠ "" then
          match get_user_by_email db1 email with
          | some eeu => eeu.id ≠ uid
          | none => false
        else false
      if conflict then
        (db1, .error (.http 400 ("Discord email (" ++ email ++ ") is already associated with another account. Please use a different Discord account or contact support.")))
      else
        (updateUserRow db1 uid
          (explicitLinkUpdate (fun u => { u with discord_id := some did }) username email origEmail),
         .ok uid)
    | none =>
      if email = "" then
        (db, .error (.http 400 "Discord account email not available"))
      else
        match insertUser db (some did) none (some email) username with
        | (db1, some newU) => (db1, .ok newU.id)
        | (db1, none) => (db1, .error .integrityError)
  else
    match ghost_user, web_user with
    | some g, some w =>
      if g.id ≠ w.id then
        (updateUserRow (merge_user_accounts db g w) w.id (attachDiscordUpdate did username),
         .ok w.id)
      else
        (updateUserRow db g.id (sameRowEmailUpdate email), .ok g.id)
    | some g, none =>
      if email ≠ "" then
        (updateUserRow db g.id (ghostPromoteUpdate username email), .ok g.id)
      else
        (updateUserRow db g.id (fillUsername username), .ok g.id)
    | none, some w =>
      (updateUserRow db w.id (attachDiscordUpdate did username), .ok w.id)
    | none, none =>
      if email = "" then
        (db, .error (.http 400 "Discord account email not available"))
      else
        match insertUser db (some did) none (some email) username with
        | (db1, some newU) => (db1, .ok newU.id)
        | (db1, none) => (db1, .error .integrityError)

/-- routes/auth.py lines 164-371: the whole endpoint.  The blanket
`except Exception` (lines 367-371) turns every exception — the deliberately
raised HTTPExceptions included — into a 500 whose detail embeds str(e). -/
def discord_oauth_callback (db : DB) (did username email : String)
    (userId : Option Nat) : DB × Except HttpError Nat :=
  match discordCallbackInner db did username email userId with
  | (db1, .ok uid) => (db1, .ok uid)
  | (db1, .error e) =>
    (db1, .error { status := 500, detail := "Discord OAuth error: " ++ pyExcMessage e })

/-! ### link_discord_account (routes/auth.py lines 374-481) -/

/-- The try-block body of link_discord_account from the point where the
provider profile is in hand (routes/auth.py lines 430-473); `cuId` is the
authenticated caller's id. -/
def linkDiscordInner (db : DB) (cuId : Nat) (did email : String) : DB × Except PyExc Nat :=
  match findUserById db cuId with
  | none => (db, .error (.http 401 "Could not validate credentials"))
  | some cu =>
    let db1 :=
      match get_user_by_discord_id db did with
      | some edu => if edu.id ≠ cu.id then merge_user_accounts db edu cu else db
      | none => db
    let conflict :=
      if email ≠ "" then
        match get_user_by_email db1 email with
        | some eeu => eeu.id ≠ cuId
        | none => false
      else false
    if conflict then
      (db1, .error (.http 400 ("Discord email (" ++ email ++ ") is already associated with another account. Please use a different Discord account or contact support.")))
    else
      let origEmail := ((findUserById db1 cuId).getD cu).email
      (updateUserRow db1 cuId (linkDiscordUpdate did email origEmail), .ok cuId)

/-- routes/auth.py lines 374-481: `except HTTPException: raise` re-raises the
400 conflict unchanged; only non-HTTP exceptions become a 500. -/
def link_discord_account (db : DB) (cuId : Nat) (did email : String) :
    DB × Except HttpError Nat :=
  match linkDiscordInner db cuId did email with
  | (db1, .ok uid) => (db1, .ok uid)
  | (db1, .error (.http s d)) => (db1, .error { status := s, detail := d })
  | (db1, .error e) =>
    (db1, .error { status := 500, detail := "Failed to link Discord account: " ++ pyExcMessage e })

/-! ### google_oauth_callback (routes/auth.py lines 506-686) -/

/-- The try-block body of google_oauth_callback from the point where the
provider profile is in hand (routes/auth.py lines 565-669). -/
def googleCallbackInner (db : DB) (gid username email : String)
    (userId : Option Nat) : DB × Except PyExc Nat :=
  let google_user_obj := get_user_by_google_id db gid
  let email_user := if email ≠ "" then get_user_by_email db email else none
  if explicitTarget userId then
    let uid := userId.getD 0
    match findUserById db uid with
    | some user =>
      let origEmail := user.email
      let db1 :=
        match get_user_by_google_id db gid with
        | some egu => if egu.id ≠ user.id then merge_user_accounts db egu user else db
        | none => db
      let conflict :=
        if email ≠ "" then
          match get_user_by_email db1 email with
          | some eeu => eeu.id ≠ uid
          | none => false
        else false
      if conflict then
        (db1, .error (.http 400 ("Google email (" ++ email ++ ") is already associated with another account.")))
      else
        (updateUserRow db1 uid
          (explicitLinkUpdate (fun u => { u with google_id := some gid }) username email origEmail),
         .ok uid)
    | none =>
      if email = "" then
        (db, .error (.http 400 "Google account email not available"))
      else
        match insertUser db none (some gid) (some email) username with
        | (db1, some newU) => (db1, .ok newU.id)
        | (db1, none) => (db1, .error .integrityError)
  else
    match google_user_obj, email_user with
    | some g, some w =>
      if g.id ≠ w.id then
        (updateUserRow (merge_user_accounts db g w) w.id (attachGoogleUpdate gid username),
         .ok w.id)
      else
        (db, .ok g.id)
    | some g, none =>
      (updateUserRow db g.id (googleNoEmailUserUpdate username email), .ok g.id)
    | none, some w =>
      (updateUserRow db w.id (attachGoogleUpdate gid username), .ok w.id)
    | none, none =>
      if email = "" then
        (db, .error (.http 400 "Google account email not available"))
      else
        match insertUser db none (some gid) (some email) username with
        | (db1, some newU) => (db1, .ok newU.id)
        | (db1, none) => (db1, .error .integrityError)

/-- routes/auth.py lines 506-686: the blanket `except Exception`
(lines 682-686) wraps every exception into a 500. -/
def google_oauth_callback (db : DB) (gid username email : String)
    (userId : Option Nat) : DB × Except HttpError Nat :=
  match googleCallbackInner db gid username email userId with
  | (db1, .ok uid) => (db1, .ok uid)
  | (db1, .error e) =>
    (db1, .error { status := 500, detail := "Google OAuth error: " ++ pyExcMessage e })

/-! ### get_discord_bot_token (routes/auth.py lines 689-728) -/

/-- routes/auth.py lines 699-721: get or create the ghost account.  The create
branch constructs User(discord_id=..., username=..., email=None,
hashed_password=None) at line 706-711; api/models.py declares no
hashed_password column, so the declarative constructor raises TypeError before
db.add at line 712 runs and nothing is persisted.  For an existing row the
username is updated if it changed and the token subject is the user id. -/
def get_discord_bot_token (db : DB) (did username : String) : DB × Except PyExc Nat :=
  match get_user_by_discord_id db did with
  | none => (db, .error .typeError)
  | some u =>
    (updateUserRow db u.id
      (fun v => if v.username ≠ username then { v with username := username } else v),
     .ok u.id)

/-- The HTTP outcome of POST /auth/discord/bot-token: the route body has no
try block, so an exception escaping it is answered by the framework default,
HTTP 500 Internal Server Error. -/
def discord_bot_token_route (db : DB) (did username : String) :
    DB × Except HttpError Nat :=
  match get_discord_bot_token db did username with
  | (db1, .ok uid) => (db1, .ok uid)
  | (db1, .error _) => (db1, .error { status := 500, detail := "Internal Server Error" })

/-! ### authenticate_user and login -/

/-- auth.py lines 104-109: try email first, then username. -/
def lookupByIdentifier (db : DB) (identifier : String) : Option User :=
  match get_user_by_email db identifier with
  | some u => some u
  | none => get_user_by_username db identifier

/-- auth.py lines 99-117: lookup by email then username; no match returns None
(line 112).  A found user reaches line 113, where user.hashed_password reads an
attribute api/models.py never declares, raising AttributeError; the password
check below line 113 is unreachable. -/
def authenticate_user (db : DB) (identifier _password : String) :
    Except PyExc (Option User) :=
  match lookupByIdentifier db identifier with
  | none => .ok none
  | some _ => .error .attributeError

/-- routes/auth.py lines 45-73: a None result of authenticate_user is a 401; a
success issues a token whose subject is the user id (last_login touch
omitted).  The route has no try block, so the AttributeError authenticate_user
raises for any found user escapes as an unhandled HTTP 500. -/
def login (db : DB) (identifier password : String) : Except HttpError Nat :=
  match authenticate_user db identifier password with
  | .ok none => .error { status := 401, detail := "Incorrect username/email or password" }
  | .ok (some u) => .ok u.id
  | .error _ => .error { status := 500, detail := "Internal Server Error" }

/-! ### The auth operations as one type, for invariant preservation -/

/-- One serial auth operation: the two OAuth callbacks, the authenticated link
endpoint, the bot-token ghost get-or-create, and a direct merge of two
distinct existing users (the only way the code ever invokes
merge_user_accounts). -/
inductive AuthOp where
  | discordCallback (did username email : String) (userId : Option Nat)
  | googleCallback (gid username email : String) (userId : Option Nat)
  | linkDiscord (cuId : Nat) (did email : String)
  | botToken (did username : String)
  | mergeOp (srcId tgtId : Nat)
deriving Repr, DecidableEq

/-- The committed database an operation leaves behind (on an exception, the
last committed state). -/
def applyAuthOp (db : DB) : AuthOp → DB
  | .discordCallback did un em uid => (discord_oauth_callback db did un em uid).1
  | .googleCallback gid un em uid => (google_oauth_callback db gid un em uid).1
  | .linkDiscord cu did em => (link_discord_account db cu did em).1
  | .botToken did un => (get_discord_bot_token db did un).1
  | .mergeOp s t =>
    match findUserById db s, findUserById db t with
    | some su, some tu => if su.id ≠ tu.id then merge_user_accounts db su tu else db
    | _, _ => db

/-! ### Invariants -/

/-- Two user rows never share a non-null identity-key value (spec section 3). -/
def keyDistinct (u v : User) : Prop :=
  (u.discord_id = none ∨ u.discord_id ≠ v.discord_id) ∧
  (u.google_id = none ∨ u.google_id ≠ v.google_id) ∧
  (u.email = none ∨ u.email ≠ v.email)

instance (u v : User) : Decidable (keyDistinct u v) := by
  unfold keyDistinct; infer_instance

/-- At most one user row holds a given non-null discord_id, google_id or
email. -/
def KeyInv (db : DB) : Prop :=
  db.users.Pairwise keyDistinct

instance (db : DB) : Decidable (KeyInv db) := by
  unfold KeyInv; infer_instance

/-- Structural well-formedness: user ids are distinct and below the
autoincrement counter. -/
def WF (db : DB) : Prop :=
  db.users.Pairwise (fun u v => u.id ≠ v.id) ∧ ∀ u ∈ db.users, u.id < db.nextUserId

instance (db : DB) : Decidable (WF db) := by
  unfold WF; infer_instance

/-! ### Derived predicates describing the merge loop's net effect -/

/-- A process id is hit when some source process key resolves in the target
dict to a process with that id — exactly the target rows the loop deletes. -/
def hitBy (tps l : List Process) (pid : Nat) : Bool :=
  l.any (fun sp =>
    match targetWithKey tps (processKey sp) with
    | some tp => tp.id == pid
    | none => false)

/-- What becomes of one pre-loop process row: deleted when hit, re-parented
onto the target when it is one of the iterated source rows, untouched
otherwise. -/
def loopResultEntry (tgtId : Nat) (tps l : List Process) (p : Process) : Option Process :=
  if hitBy tps l p.id then none
  else if l.any (fun sp => sp.id == p.id) then some { p with user_id := tgtId }
  else some p

/-- The keys of a process list are pairwise distinct — the per-user uniqueness
the spec asserts for the dedup key. -/
def keysDistinct (l : List Process) : Prop :=
  l.Pairwise (fun p q => processKey p ≠ processKey q)

instance (l : List Process) : Decidable (keysDistinct l) := by
  unfold keysDistinct; infer_instance

/-! ### Concrete databases used by counterexamples and witnesses -/

/-- An empty store; the autoincrement counter starts at 1. -/
def dbEmpty : DB := { users := [], processes := [], stages := [], feedback := [], nextUserId := 1 }

def c1src : User :=
  { id := 1, discord_id := some "1", google_id := none, email := none,
    username := "s" }

def c1tgt : User :=
  { id := 2, discord_id := none, google_id := none, email := some "t@x.com",
    username := "t" }

/-- The spec's own example rows: source owns ("Google", "Software Engineer") and
("Meta", ""), target owns ("google", "SOFTWARE ENGINEER") and ("Meta", null). -/
def c1db : DB :=
  { users := [c1src, c1tgt],
    processes :=
      [{ id := 1, user_id := 1, company_name := "Google", position := some "Software Engineer" },
       { id := 2, user_id := 2, company_name := "google", position := some "SOFTWARE ENGINEER" },
       { id := 3, user_id := 1, company_name := "Meta", position := some "" },
       { id := 4, user_id := 2, company_name := "Meta", position := none }],
    stages := [], feedback := [], nextUserId := 3 }

def c2src : User :=
  { id := 1, discord_id := some "1", google_id := none, email := none,
    username := "g" }

def c2tgt : User :=
  { id := 2, discord_id := none, google_id := none, email := some "t@x.com",
    username := "t" }

/-- Source user 1 owns one process with a stage and one feedback row. -/
def c2db : DB :=
  { users := [c2src, c2tgt],
    processes := [{ id := 1, user_id := 1, company_name := "acme", position := none }],
    stages := [{ id := 1, process_id := 1, stage_name := "OA" }],
    feedback := [{ id := 1, user_id := some 1, message := "hi" }],
    nextUserId := 3 }

/-- A user whose discord id is "1" and whose email is already set. -/
def c3db : DB :=
  { users :=
      [{ id := 1, discord_id := some "1", google_id := none, email := some "old@x.com",
         username := "alice" }],
    processes := [], stages := [], feedback := [], nextUserId := 2 }

/-- User A (id 1) owns a@x.com; user B (id 2) owns b@y.com. -/
def c4db : DB :=
  { users :=
      [{ id := 1, discord_id := none, google_id := none, email := some "a@x.com",
         username := "a" },
       { id := 2, discord_id := none, google_id := none, email := some "b@y.com",
         username := "b" }],
    processes := [], stages := [], feedback := [], nextUserId := 3 }

/-- A merge scenario with a real key collision: source process 1 ("acme","SDE")
collides with target process 2 ("Acme","SDE"); target process 3 does not. -/
def c5db : DB :=
  { users := [c1src, c1tgt],
    processes :=
      [{ id := 1, user_id := 1, company_name := "acme", position := some "SDE" },
       { id := 2, user_id := 2, company_name := "Acme", position := some "SDE" },
       { id := 3, user_id := 2, company_name := "other", position := none }],
    stages :=
      [{ id := 1, process_id := 1, stage_name := "OA" },
       { id := 2, process_id := 2, stage_name := "Offer" },
       { id := 3, process_id := 3, stage_name := "Phone" }],
    feedback := [{ id := 1, user_id := some 1, message := "hi" }],
    nextUserId := 3 }

def c10ghost : User :=
  { id := 1, discord_id := some "5", google_id := none, email := none,
    username := "ghost" }

/-- A ghost account with no stored password. -/
def c10db : DB :=
  { users := [c10ghost], processes := [], stages := [], feedback := [], nextUserId := 2 }

/-- A store already holding a ghost row for discord id "123". -/
def c7db : DB :=
  { users := [{ id := 1, discord_id := some "123", google_id := none, email := none,
                username := "alice" }],
    processes := [], stages := [], feedback := [], nextUserId := 2 }

/-! ### List helper lemmas -/

theorem filterMap_filter_eq {α β : Type} (q : α → Bool) (f : α → Option β) :
    ∀ l : List α,
      (l.filter q).filterMap f = l.filterMap (fun a => if q a then f a else none)
  | [] => rfl
  | a :: t => by
    by_cases h : q a <;>
      simp [List.filter_cons, h, List.filterMap_cons, filterMap_filter_eq q f t]

/-! ### Characterising the merge loop -/

theorem loopResultEntry_reowned (tgtId : Nat) (tps rest : List Process) (p : Process) :
    loopResultEntry tgtId tps rest { p with user_id := tgtId } =
      if hitBy tps rest p.id then none else some { p with user_id := tgtId } := by
  by_cases h3 : hitBy tps rest p.id <;>
    by_cases h4 : rest.any (fun sp => sp.id == p.id) <;>
      simp [loopResultEntry, h3, h4]

theorem loopResultEntry_cons (tgtId : Nat) (tps : List Process) (sp : Process)
    (rest : List Process) (p : Process) :
    loopResultEntry tgtId tps (sp :: rest) p =
      (match targetWithKey tps (processKey sp) with
       | some tp =>
         if p.id = tp.id then none
         else loopResultEntry tgtId tps rest
           (if p.id = sp.id then { p with user_id := tgtId } else p)
       | none =>
         loopResultEntry tgtId tps rest
           (if p.id = sp.id then { p with user_id := tgtId } else p)) := by
  cases h : targetWithKey tps (processKey sp) with
  | some tp =>
    by_cases h1 : p.id = tp.id
    · simp [loopResultEntry, hitBy, List.any_cons, h, h1]
    · have htp : (tp.id == p.id) = false := by
        simp [Ne.symm h1]
      by_cases h2 : p.id = sp.id
      · simp only [loopResultEntry, hitBy, List.any_cons, h, htp, Bool.false_or, h1,
          if_neg h1, if_pos h2, loopResultEntry_reowned]
        by_cases h3 : hitBy tps rest p.id <;> by_cases h4 : rest.any (fun q => q.id == p.id) <;>
          simp [loopResultEntry, hitBy, h2, h3, h4]
      · have hsp : (sp.id == p.id) = false := by
          simp [Ne.symm h2]
        simp [loopResultEntry, hitBy, List.any_cons, h, htp, hsp, h1, h2]
  | none =>
    by_cases h2 : p.id = sp.id
    · simp only [h, if_pos h2, loopResultEntry_reowned]
      by_cases h3 : hitBy tps rest p.id <;> by_cases h4 : rest.any (fun q => q.id == p.id) <;>
        simp [loopResultEntry, hitBy, List.any_cons, h, h2, h3, h4]
    · have hsp : (sp.id == p.id) = false := by
        simp [Ne.symm h2]
      simp [loopResultEntry, hitBy, List.any_cons, h, hsp, h2]

theorem mergeStep_processes (tgtId : Nat) (tps : List Process) (acc : DB) (sp : Process)
    (rest : List Process) :
    (mergeStep tgtId tps acc sp).processes.filterMap (loopResultEntry tgtId tps rest) =
      acc.processes.filterMap (loopResultEntry tgtId tps (sp :: rest)) := by
  cases h : targetWithKey tps (processKey sp) with
  | some tp =>
    simp only [mergeStep, h, setProcessOwner, deleteProcess, List.filterMap_map,
      filterMap_filter_eq]
    refine List.filterMap_congr (fun p _ => ?_)
    rw [loopResultEntry_cons tgtId tps sp rest p, h]
    by_cases h1 : p.id = tp.id <;> simp [h1, Function.comp]
  | none =>
    simp only [mergeStep, h, setProcessOwner, List.filterMap_map]
    refine List.filterMap_congr (fun p _ => ?_)
    rw [loopResultEntry_cons tgtId tps sp rest p, h]
    simp [Function.comp]

theorem mergeLoop_processes (tgtId : Nat) (tps : List Process) :
    ∀ (l : List Process) (acc : DB),
      (mergeLoop tgtId tps acc l).processes =
        acc.processes.filterMap (loopResultEntry tgtId tps l)
  | [], acc => by
    have h : loopResultEntry tgtId tps [] = some := by
      funext p; simp [loopResultEntry, hitBy]
    show acc.processes = acc.processes.filterMap (loopResultEntry tgtId tps [])
    rw [h, List.filterMap_some]
  | sp :: rest, acc => by
    rw [mergeLoop, mergeLoop_processes tgtId tps rest (mergeStep tgtId tps acc sp),
      mergeStep_processes]

theorem mergeStep_stages (tgtId : Nat) (tps : List Process) (acc : DB) (sp : Process)
    (rest : List Process) :
    (mergeStep tgtId tps acc sp).stages.filter (fun s => !(hitBy tps rest s.process_id)) =
      acc.stages.filter (fun s => !(hitBy tps (sp :: rest) s.process_id)) := by
  cases h : targetWithKey tps (processKey sp) with
  | some tp =>
    simp only [mergeStep, h, setProcessOwner, deleteProcess, List.filter_filter]
    refine List.filter_congr (fun s _ => ?_)
    simp only [hitBy, List.any_cons, h]
    by_cases h1 : s.process_id = tp.id
    · simp [h1]
    · have e1 : (s.process_id != tp.id) = true := by simp [h1]
      have e2 : (tp.id == s.process_id) = false := by simp [Ne.symm h1]
      rw [e1, e2]
      simp
  | none =>
    simp only [mergeStep, h, setProcessOwner]
    refine List.filter_congr (fun s _ => ?_)
    simp [hitBy, List.any_cons, h]

theorem mergeLoop_stages (tgtId : Nat) (tps : List Process) :
    ∀ (l : List Process) (acc : DB),
      (mergeLoop tgtId tps acc l).stages =
        acc.stages.filter (fun s => !(hitBy tps l s.process_id))
  | [], acc => by
    simp [mergeLoop, hitBy]
  | sp :: rest, acc => by
    rw [mergeLoop, mergeLoop_stages tgtId tps rest (mergeStep tgtId tps acc sp),
      mergeStep_stages]

theorem mergeLoop_users (tgtId : Nat) (tps : List Process) :
    ∀ (l : List Process) (acc : DB), (mergeLoop tgtId tps acc l).users = acc.users
  | [], _ => rfl
  | sp :: rest, acc => by
    rw [mergeLoop, mergeLoop_users tgtId tps rest]
    cases h : targetWithKey tps (processKey sp) <;>
      simp [mergeStep, h, setProcessOwner, deleteProcess]

theorem mergeLoop_feedback (tgtId : Nat) (tps : List Process) :
    ∀ (l : List Process) (acc : DB), (mergeLoop tgtId tps acc l).feedback = acc.feedback
  | [], _ => rfl
  | sp :: rest, acc => by
    rw [mergeLoop, mergeLoop_feedback tgtId tps rest]
    cases h : targetWithKey tps (processKey sp) <;>
      simp [mergeStep, h, setProcessOwner, deleteProcess]

theorem mergeLoop_nextUserId (tgtId : Nat) (tps : List Process) :
    ∀ (l : List Process) (acc : DB), (mergeLoop tgtId tps acc l).nextUserId = acc.nextUserId
  | [], _ => rfl
  | sp :: rest, acc => by
    rw [mergeLoop, mergeLoop_nextUserId tgtId tps rest]
    cases h : targetWithKey tps (processKey sp) <;>
      simp [mergeStep, h, setProcessOwner, deleteProcess]

/-! ### Characterising merge_user_accounts end to end -/

theorem mergeCommitted1_users (db : DB) (src tgt : User) :
    (mergeCommitted1 db src tgt).users = db.users :=
  mergeLoop_users _ _ _ _

theorem mergeCommitted1_processes (db : DB) (src tgt : User) :
    (mergeCommitted1 db src tgt).processes =
      db.processes.filterMap
        (loopResultEntry tgt.id (targetProcs db tgt.id) (sourceProcs db src.id)) :=
  mergeLoop_processes _ _ _ _

theorem mergeCommitted1_stages (db : DB) (src tgt : User) :
    (mergeCommitted1 db src tgt).stages =
      db.stages.filter
        (fun s => !(hitBy (targetProcs db tgt.id) (sourceProcs db src.id) s.process_id)) :=
  mergeLoop_stages _ _ _ _

theorem mergeTransfers_feedback (db : DB) (src tgt : User) :
    (mergeTransfers db src tgt).feedback = db.feedback :=
  mergeLoop_feedback _ _ _ _

theorem mergeCommitted1_feedback (db : DB) (src tgt : User) :
    (mergeCommitted1 db src tgt).feedback =
      db.feedback.map
        (fun f => if f.user_id == some src.id then { f with user_id := some tgt.id } else f) := by
  show ((mergeTransfers db src tgt).feedback.map _) = _
  rw [mergeTransfers_feedback]

theorem mergeCommitted1_nextUserId (db : DB) (src tgt : User) :
    (mergeCommitted1 db src tgt).nextUserId = db.nextUserId :=
  mergeLoop_nextUserId _ _ _ _

theorem mergeCommitted1_not_src_owned (db : DB) (src tgt : User) (hne : src.id ≠ tgt.id) :
    ∀ q ∈ (mergeCommitted1 db src tgt).processes, q.user_id ≠ src.id := by
  intro q hq
  rw [mergeCommitted1_processes] at hq
  rcases List.mem_filterMap.mp hq with ⟨p, hp, hentry⟩
  unfold loopResultEntry at hentry
  by_cases h3 : hitBy (targetProcs db tgt.id) (sourceProcs db src.id) p.id
  · simp [h3] at hentry
  · by_cases h4 : (sourceProcs db src.id).any (fun sp => sp.id == p.id)
    · simp only [h3, h4, if_neg, if_pos, Bool.false_eq_true, not_false_eq_true,
        if_true, Option.some.injEq] at hentry
      rw [← hentry]
      exact Ne.symm hne
    · simp only [h3, h4, Bool.false_eq_true, not_false_eq_true, if_neg,
        Option.some.injEq] at hentry
      rw [← hentry]
      intro hqsrc
      apply h4
      have hpmem : p ∈ sourceProcs db src.id :=
        List.mem_filter.mpr ⟨hp, by simp [hqsrc]⟩
      exact List.any_eq_true.mpr ⟨p, hpmem, by simp⟩

theorem merge_users (db : DB) (src tgt : User) :
    (merge_user_accounts db src tgt).users = db.users.filter (fun u => u.id != src.id) := by
  show (mergeCommitted1 db src tgt).users.filter (fun u => u.id != src.id) = _
  rw [mergeCommitted1_users]

theorem merge_spec (db : DB) (src tgt : User) (hne : src.id ≠ tgt.id) :
    (merge_user_accounts db src tgt).users = db.users.filter (fun u => u.id != src.id) ∧
    (merge_user_accounts db src tgt).processes =
      db.processes.filterMap
        (loopResultEntry tgt.id (targetProcs db tgt.id) (sourceProcs db src.id)) ∧
    (merge_user_accounts db src tgt).stages =
      db.stages.filter
        (fun s => !(hitBy (targetProcs db tgt.id) (sourceProcs db src.id) s.process_id)) ∧
    (merge_user_accounts db src tgt).feedback =
      db.feedback.map
        (fun f => if f.user_id == some src.id then { f with user_id := some tgt.id } else f) ∧
    (merge_user_accounts db src tgt).nextUserId = db.nextUserId := by
  refine ⟨merge_users db src tgt, ?_, ?_, ?_, ?_⟩
  · show (mergeCommitted1 db src tgt).processes.filter (fun p => p.user_id != src.id) = _
    rw [List.filter_eq_self.mpr, mergeCommitted1_processes]
    intro q hq
    simpa using mergeCommitted1_not_src_owned db src tgt hne q hq
  · show (mergeCommitted1 db src tgt).stages.filter _ = _
    have hnil : (mergeCommitted1 db src tgt).processes.filter
        (fun p => p.user_id == src.id) = [] := by
      rw [List.filter_eq_nil_iff]
      intro q hq
      simpa using mergeCommitted1_not_src_owned db src tgt hne q hq
    rw [hnil]
    have : ∀ s ∈ (mergeCommitted1 db src tgt).stages,
        (!(List.map (fun p => p.id) ([] : List Process)).contains s.process_id) = true := by
      intro s _; simp
    rw [List.filter_eq_self.mpr this, mergeCommitted1_stages]
  · show (mergeCommitted1 db src tgt).feedback.filter (fun f => f.user_id != some src.id) = _
    rw [List.filter_eq_self.mpr, mergeCommitted1_feedback]
    intro q hq
    rw [mergeCommitted1_feedback] at hq
    rcases List.mem_map.mp hq with ⟨f, _, hf⟩
    by_cases hc : f.user_id == some src.id
    · rw [if_pos hc] at hf
      rw [← hf]
      simp
      intro hEq
      exact hne hEq.symm
    · rw [if_neg hc] at hf
      rw [← hf]
      simpa using hc
  · show (mergeCommitted1 db src tgt).nextUserId = _
    exact mergeCommitted1_nextUserId db src tgt

/-! ### The dict lookup under the per-user key uniqueness the spec assumes -/

theorem length_filter_le_one_of_pairwise {α : Type} {l : List α} {R : α → α → Prop}
    (hpw : l.Pairwise R) (p : α → Bool)
    (h : ∀ a b, p a = true → p b = true → ¬ R a b) :
    (l.filter p).length ≤ 1 := by
  have hpw2 : (l.filter p).Pairwise R := hpw.sublist (List.filter_sublist l)
  cases hf : l.filter p with
  | nil => simp
  | cons a t =>
    cases t with
    | nil => simp
    | cons b t2 =>
      exfalso
      rw [hf] at hpw2
      have hab := List.rel_of_pairwise_cons hpw2 (List.mem_cons_self b t2)
      have ha : p a = true := List.of_mem_filter (a := a) (l := l)
        (by rw [hf]; exact List.mem_cons_self a _)
      have hb : p b = true := List.of_mem_filter (a := b) (l := l)
        (by rw [hf]; exact List.mem_cons_of_mem a (List.mem_cons_self b t2))
      exact h a b ha hb hab

theorem eq_singleton_of_length_le_one {α : Type} {l : List α} {a : α}
    (hlen : l.length ≤ 1) (ha : a ∈ l) : l = [a] := by
  cases l with
  | nil => cases ha
  | cons x t =>
    cases t with
    | nil =>
      rcases List.mem_singleton.mp ha with rfl
      rfl
    | cons y t2 => simp at hlen

theorem targetWithKey_mem {tps : List Process} {k : String × Option String} {tp : Process}
    (h : targetWithKey tps k = some tp) : tp ∈ tps ∧ processKey tp = k := by
  unfold targetWithKey at h
  rcases List.getLast?_eq_some_iff.mp h with ⟨ys, hys⟩
  have hmem : tp ∈ tps.filter (fun p => processKey p == k) := by
    rw [hys]; exact List.mem_append_right ys (List.mem_singleton.mpr rfl)
  rcases List.mem_filter.mp hmem with ⟨hm, hk⟩
  exact ⟨hm, by simpa using hk⟩

theorem targetWithKey_self {tps : List Process} (hkeys : keysDistinct tps) {tp : Process}
    (htp : tp ∈ tps) : targetWithKey tps (processKey tp) = some tp := by
  have hle : (tps.filter (fun p => processKey p == processKey tp)).length ≤ 1 := by
    refine length_filter_le_one_of_pairwise hkeys _ (fun a b ha hb => ?_)
    intro hR
    have ha2 : processKey a = processKey tp := by simpa using ha
    have hb2 : processKey b = processKey tp := by simpa using hb
    exact hR (ha2.trans hb2.symm)
  have hmem : tp ∈ tps.filter (fun p => processKey p == processKey tp) :=
    List.mem_filter.mpr ⟨htp, by simp⟩
  unfold targetWithKey
  rw [eq_singleton_of_length_le_one hle hmem]
  rfl

theorem targetWithKey_unique {tps : List Process} (hkeys : keysDistinct tps) {tp tq : Process}
    (htp : tp ∈ tps) (h : targetWithKey tps (processKey tp) = some tq) : tq = tp := by
  rw [targetWithKey_self hkeys htp] at h
  exact (Option.some.inj h).symm

/-! ### Membership facts about the merged process table -/

theorem id_unique_of_pairwise {l : List Process}
    (hpid : l.Pairwise (fun p q => p.id ≠ q.id)) {p q : Process}
    (hp : p ∈ l) (hq : q ∈ l) (h : p.id = q.id) : p = q := by
  by_contra hne
  exact (hpid.forall (fun _ _ hrel => Ne.symm hrel) hp hq hne) h

theorem hit_of_collision (db : DB) (src tgt : User)
    (hkeys : keysDistinct (targetProcs db tgt.id))
    {sp tp : Process} (hsp : sp ∈ db.processes) (hspo : sp.user_id = src.id)
    (htp : tp ∈ db.processes) (htpo : tp.user_id = tgt.id)
    (hk : processKey sp = processKey tp) :
    hitBy (targetProcs db tgt.id) (sourceProcs db src.id) tp.id = true := by
  apply List.any_eq_true.mpr
  refine ⟨sp, List.mem_filter.mpr ⟨hsp, by simp [hspo]⟩, ?_⟩
  have htpmem : tp ∈ targetProcs db tgt.id := List.mem_filter.mpr ⟨htp, by simp [htpo]⟩
  rw [hk, targetWithKey_self hkeys htpmem]
  simp

theorem collision_of_hit (db : DB) (src tgt : User)
    (hpid : db.processes.Pairwise (fun p q => p.id ≠ q.id))
    {tp : Process} (htp : tp ∈ db.processes)
    (hhit : hitBy (targetProcs db tgt.id) (sourceProcs db src.id) tp.id = true) :
    ∃ sp ∈ db.processes, sp.user_id = src.id ∧ processKey sp = processKey tp := by
  rcases List.any_eq_true.mp hhit with ⟨sq, hsq, hmatch⟩
  cases hw : targetWithKey (targetProcs db tgt.id) (processKey sq) with
  | none => rw [hw] at hmatch; cases hmatch
  | some tp2 =>
    rw [hw] at hmatch
    have h2 : tp2.id = tp.id := by simpa using hmatch
    have hmemtp2 : tp2 ∈ targetProcs db tgt.id := (targetWithKey_mem hw).1
    have hkey2 : processKey tp2 = processKey sq := (targetWithKey_mem hw).2
    have hmem2 : tp2 ∈ db.processes := (List.mem_filter.mp hmemtp2).1
    have heq : tp2 = tp := id_unique_of_pairwise hpid hmem2 htp h2
    rcases List.mem_filter.mp hsq with ⟨hsqm, hsqo⟩
    refine ⟨sq, hsqm, by simpa using hsqo, ?_⟩
    rw [← hkey2, heq]

theorem source_process_reparented (db : DB) (src tgt : User) (hne : src.id ≠ tgt.id)
    (hpid : db.processes.Pairwise (fun p q => p.id ≠ q.id))
    {sp : Process} (hsp : sp ∈ db.processes) (hspo : sp.user_id = src.id) :
    { sp with user_id := tgt.id } ∈ (merge_user_accounts db src tgt).processes := by
  rw [(merge_spec db src tgt hne).2.1]
  apply List.mem_filterMap.mpr
  refine ⟨sp, hsp, ?_⟩
  unfold loopResultEntry
  have hnothit : hitBy (targetProcs db tgt.id) (sourceProcs db src.id) sp.id = false := by
    by_contra hh
    have hh2 : hitBy (targetProcs db tgt.id) (sourceProcs db src.id) sp.id = true := by
      simpa using hh
    rcases List.any_eq_true.mp hh2 with ⟨sq, _, hmatch⟩
    cases hw : targetWithKey (targetProcs db tgt.id) (processKey sq) with
    | none => rw [hw] at hmatch; cases hmatch
    | some tp2 =>
      rw [hw] at hmatch
      have h2 : tp2.id = sp.id := by simpa using hmatch
      have hmemtp2 : tp2 ∈ targetProcs db tgt.id := (targetWithKey_mem hw).1
      rcases List.mem_filter.mp hmemtp2 with ⟨hm2, ho2⟩
      have heq : tp2 = sp := id_unique_of_pairwise hpid hm2 hsp h2
      have ho2b : tp2.user_id = tgt.id := by simpa using ho2
      rw [heq, hspo] at ho2b
      exact hne ho2b
  have hin : (sourceProcs db src.id).any (fun q => q.id == sp.id) = true :=
    List.any_eq_true.mpr ⟨sp, List.mem_filter.mpr ⟨hsp, by simp [hspo]⟩, by simp⟩
  simp [hnothit, hin]

theorem collided_target_deleted (db : DB) (src tgt : User) (hne : src.id ≠ tgt.id)
    (hpid : db.processes.Pairwise (fun p q => p.id ≠ q.id))
    (hkeys : keysDistinct (targetProcs db tgt.id))
    {sp tp : Process} (hsp : sp ∈ db.processes) (hspo : sp.user_id = src.id)
    (htp : tp ∈ db.processes) (htpo : tp.user_id = tgt.id)
    (hk : processKey sp = processKey tp) :
    tp ∉ (merge_user_accounts db src tgt).processes ∧
      ∀ s ∈ db.stages, s.process_id = tp.id →
        s ∉ (merge_user_accounts db src tgt).stages := by
  have hhit := hit_of_collision db src tgt hkeys hsp hspo htp htpo hk
  constructor
  · intro hmem
    rw [(merge_spec db src tgt hne).2.1] at hmem
    rcases List.mem_filterMap.mp hmem with ⟨p, hp, hentry⟩
    unfold loopResultEntry at hentry
    by_cases h3 : hitBy (targetProcs db tgt.id) (sourceProcs db src.id) p.id = true
    · rw [if_pos h3] at hentry
      cases hentry
    · rw [if_neg h3] at hentry
      by_cases h4 : (sourceProcs db src.id).any (fun q => q.id == p.id) = true
      · rw [if_pos h4] at hentry
        have hid : p.id = tp.id := by
          have := Option.some.inj hentry
          calc p.id = ({ p with user_id := tgt.id } : Process).id := rfl
            _ = tp.id := by rw [this]
        have heq : p = tp := id_unique_of_pairwise hpid hp htp hid
        rw [heq] at h3
        exact h3 hhit
      · rw [if_neg h4] at hentry
        have heq : p = tp := Option.some.inj hentry
        rw [heq] at h3
        exact h3 hhit
  · intro s hs hsid hmem
    rw [(merge_spec db src tgt hne).2.2.1] at hmem
    have := (List.mem_filter.mp hmem).2
    rw [hsid, hhit] at this
    cases this

theorem uncollided_target_kept (db : DB) (src tgt : User) (hne : src.id ≠ tgt.id)
    (hpid : db.processes.Pairwise (fun p q => p.id ≠ q.id))
    {tp : Process} (htp : tp ∈ db.processes) (htpo : tp.user_id = tgt.id)
    (hnocoll : ∀ sp ∈ db.processes, sp.user_id = src.id → processKey sp ≠ processKey tp) :
    tp ∈ (merge_user_accounts db src tgt).processes := by
  rw [(merge_spec db src tgt hne).2.1]
  apply List.mem_filterMap.mpr
  refine ⟨tp, htp, ?_⟩
  unfold loopResultEntry
  have hnothit : hitBy (targetProcs db tgt.id) (sourceProcs db src.id) tp.id = false := by
    by_contra hh
    have hh2 : hitBy (targetProcs db tgt.id) (sourceProcs db src.id) tp.id = true := by
      simpa using hh
    rcases collision_of_hit db src tgt hpid htp hh2 with ⟨sp, hspm, hspo, hk⟩
    exact hnocoll sp hspm hspo hk
  have hnotin : (sourceProcs db src.id).any (fun q => q.id == tp.id) = false := by
    by_contra hh
    have hh2 : (sourceProcs db src.id).any (fun q => q.id == tp.id) = true := by
      simpa using hh
    rcases List.any_eq_true.mp hh2 with ⟨sq, hsq, hbeq⟩
    rcases List.mem_filter.mp hsq with ⟨hsqm, hsqo⟩
    have heq : sq = tp := id_unique_of_pairwise hpid hsqm htp (by simpa using hbeq)
    have hsqo2 : sq.user_id = src.id := by simpa using hsqo
    rw [heq, htpo] at hsqo2
    exact hne hsqo2.symm
  simp [hnothit, hnotin]

/-! ### Invariant plumbing: symmetry, unique holders, lookups -/

theorem optNe_symm {a b : Option String} (h : a = none ∨ a ≠ b) : b = none ∨ b ≠ a := by
  rcases h with h | h
  · cases b with
    | none => exact Or.inl rfl
    | some s => exact Or.inr (by simp [h])
  · exact Or.inr (Ne.symm h)

theorem keyDistinct_symm : Symmetric keyDistinct := by
  intro u v h
  obtain ⟨h1, h2, h3⟩ := h
  exact ⟨optNe_symm h1, optNe_symm h2, optNe_symm h3⟩

theorem discord_holder_unique {db : DB} (hInv : KeyInv db) {u v : User}
    (hu : u ∈ db.users) (hv : v ∈ db.users) (hne : u.discord_id ≠ none)
    (heq : u.discord_id = v.discord_id) : u = v := by
  by_contra hne2
  rcases (hInv.forall keyDistinct_symm hu hv hne2).1 with h | h
  · exact hne h
  · exact h heq

theorem google_holder_unique {db : DB} (hInv : KeyInv db) {u v : User}
    (hu : u ∈ db.users) (hv : v ∈ db.users) (hne : u.google_id ≠ none)
    (heq : u.google_id = v.google_id) : u = v := by
  by_contra hne2
  rcases (hInv.forall keyDistinct_symm hu hv hne2).2.1 with h | h
  · exact hne h
  · exact h heq

theorem email_holder_unique {db : DB} (hInv : KeyInv db) {u v : User}
    (hu : u ∈ db.users) (hv : v ∈ db.users) (hne : u.email ≠ none)
    (heq : u.email = v.email) : u = v := by
  by_contra hne2
  rcases (hInv.forall keyDistinct_symm hu hv hne2).2.2 with h | h
  · exact hne h
  · exact h heq

theorem user_id_unique {l : List User}
    (hid : l.Pairwise (fun u v => u.id ≠ v.id)) {u v : User}
    (hu : u ∈ l) (hv : v ∈ l) (h : u.id = v.id) : u = v := by
  by_contra hne
  exact (hid.forall (fun _ _ hrel => Ne.symm hrel) hu hv hne) h

theorem get_user_by_discord_id_some {db : DB} {did : String} {u : User}
    (h : get_user_by_discord_id db did = some u) :
    u ∈ db.users ∧ u.discord_id = some did := by
  unfold get_user_by_discord_id at h
  exact ⟨List.mem_of_find?_eq_some h, by simpa using List.find?_some h⟩

theorem get_user_by_discord_id_none {db : DB} {did : String}
    (h : get_user_by_discord_id db did = none) :
    ∀ u ∈ db.users, u.discord_id ≠ some did := by
  intro u hu
  unfold get_user_by_discord_id at h
  have := List.find?_eq_none.mp h u hu
  simpa using this

theorem get_user_by_google_id_some {db : DB} {gid : String} {u : User}
    (h : get_user_by_google_id db gid = some u) :
    u ∈ db.users ∧ u.google_id = some gid := by
  unfold get_user_by_google_id at h
  exact ⟨List.mem_of_find?_eq_some h, by simpa using List.find?_some h⟩

theorem get_user_by_google_id_none {db : DB} {gid : String}
    (h : get_user_by_google_id db gid = none) :
    ∀ u ∈ db.users, u.google_id ≠ some gid := by
  intro u hu
  unfold get_user_by_google_id at h
  have := List.find?_eq_none.mp h u hu
  simpa using this

theorem get_user_by_email_some {db : DB} {em : String} {u : User}
    (hne : em ≠ "") (h : get_user_by_email db em = some u) :
    u ∈ db.users ∧ ∃ e, u.email = some e ∧ pyLower e = pyLower em := by
  unfold get_user_by_email at h
  rw [if_neg hne] at h
  refine ⟨List.mem_of_find?_eq_some h, ?_⟩
  have hp := List.find?_some h
  cases hue : u.email with
  | none => rw [hue] at hp; cases hp
  | some e => rw [hue] at hp; exact ⟨e, rfl, by simpa using hp⟩

theorem get_user_by_email_none {db : DB} {em : String}
    (hne : em ≠ "") (h : get_user_by_email db em = none) :
    ∀ u ∈ db.users, u.email ≠ some em := by
  intro u hu hEq
  unfold get_user_by_email at h
  rw [if_neg hne] at h
  have := List.find?_eq_none.mp h u hu
  rw [hEq] at this
  simp at this

theorem findUserById_some {db : DB} {uid : Nat} {u : User}
    (h : findUserById db uid = some u) : u ∈ db.users ∧ u.id = uid := by
  unfold findUserById at h
  exact ⟨List.mem_of_find?_eq_some h, by simpa using List.find?_some h⟩

/-! ### Invariant preservation by the write primitives -/

theorem merge_nextUserId (db : DB) (src tgt : User) :
    (merge_user_accounts db src tgt).nextUserId = db.nextUserId :=
  mergeCommitted1_nextUserId db src tgt

theorem wf_merge (db : DB) (src tgt : User) (hWF : WF db) :
    WF (merge_user_accounts db src tgt) := by
  obtain ⟨h1, h2⟩ := hWF
  constructor
  · rw [merge_users]
    exact List.Pairwise.sublist (List.filter_sublist _) h1
  · intro u hu
    rw [merge_users] at hu
    rw [merge_nextUserId]
    exact h2 u (List.mem_of_mem_filter hu)

theorem keyInv_merge (db : DB) (src tgt : User) (hInv : KeyInv db) :
    KeyInv (merge_user_accounts db src tgt) := by
  show (merge_user_accounts db src tgt).users.Pairwise keyDistinct
  rw [merge_users]
  exact List.Pairwise.sublist (List.filter_sublist _) hInv

theorem merge_mem_users {db : DB} {src tgt : User} {u : User}
    (hu : u ∈ db.users) (hneq : u.id ≠ src.id) :
    u ∈ (merge_user_accounts db src tgt).users := by
  rw [merge_users]
  exact List.mem_filter.mpr ⟨hu, by simp [hneq]⟩

theorem merge_mem_users_elim {db : DB} {src tgt : User} {u : User}
    (hu : u ∈ (merge_user_accounts db src tgt).users) :
    u ∈ db.users ∧ u.id ≠ src.id := by
  rw [merge_users] at hu
  rcases List.mem_filter.mp hu with ⟨h1, h2⟩
  exact ⟨h1, by simpa using h2⟩

theorem wf_updateUserRow (db : DB) (uid : Nat) (f : User → User)
    (hid : ∀ u, (f u).id = u.id) (hWF : WF db) : WF (updateUserRow db uid f) := by
  obtain ⟨h1, h2⟩ := hWF
  constructor
  · show (db.users.map _).Pairwise _
    rw [List.pairwise_map]
    refine List.Pairwise.imp_of_mem ?_ h1
    intro a b _ _ hab
    by_cases ha : a.id = uid <;> by_cases hb : b.id = uid <;>
      simpa [ha, hb, hid a, hid b] using hab
  · intro u hu
    rcases List.mem_map.mp hu with ⟨v, hv, rfl⟩
    show (if v.id = uid then f v else v).id < db.nextUserId
    by_cases hvid : v.id = uid
    · rw [if_pos hvid, hid]; exact h2 v hv
    · rw [if_neg hvid]; exact h2 v hv

theorem optSafe_left {x y xo : Option String}
    (k : xo = none ∨ xo ≠ y)
    (h : x = xo ∨ x = none ∨ x ≠ y) : x = none ∨ x ≠ y := by
  rcases h with h | h | h
  · rw [h]; exact k
  · exact Or.inl h
  · exact Or.inr h

theorem optSafe_right {x y yo : Option String}
    (k : x = none ∨ x ≠ yo)
    (h : y = yo ∨ y = none ∨ y ≠ x) : x = none ∨ x ≠ y := by
  rcases h with h | h | h
  · rw [h]; exact k
  · cases hx : x with
    | none => exact Or.inl rfl
    | some s => exact Or.inr (by simp [h])
  · exact Or.inr (Ne.symm h)

theorem keyInv_updateUserRow (db : DB) (uid : Nat) (f : User → User)
    (hWF : WF db) (hInv : KeyInv db)
    (hd : ∀ u ∈ db.users, u.id = uid →
        (f u).discord_id = u.discord_id ∨ (f u).discord_id = none ∨
        ∀ v ∈ db.users, v.id ≠ uid → (f u).discord_id ≠ v.discord_id)
    (hg : ∀ u ∈ db.users, u.id = uid →
        (f u).google_id = u.google_id ∨ (f u).google_id = none ∨
        ∀ v ∈ db.users, v.id ≠ uid → (f u).google_id ≠ v.google_id)
    (he : ∀ u ∈ db.users, u.id = uid →
        (f u).email = u.email ∨ (f u).email = none ∨
        ∀ v ∈ db.users, v.id ≠ uid → (f u).email ≠ v.email) :
    KeyInv (updateUserRow db uid f) := by
  show (db.users.map _).Pairwise keyDistinct
  rw [List.pairwise_map]
  refine List.Pairwise.imp_of_mem ?_ ((hWF.1).and hInv)
  intro a b ha hb hab
  obtain ⟨hidne, k1, k2, k3⟩ := hab
  by_cases h1 : a.id = uid <;> by_cases h2 : b.id = uid
  · exact absurd (h1.trans h2.symm) hidne
  · rw [if_pos h1, if_neg h2]
    refine ⟨?_, ?_, ?_⟩
    · refine optSafe_left k1 ?_
      rcases hd a ha h1 with h | h | h
      · exact Or.inl h
      · exact Or.inr (Or.inl h)
      · exact Or.inr (Or.inr (h b hb h2))
    · refine optSafe_left k2 ?_
      rcases hg a ha h1 with h | h | h
      · exact Or.inl h
      · exact Or.inr (Or.inl h)
      · exact Or.inr (Or.inr (h b hb h2))
    · refine optSafe_left k3 ?_
      rcases he a ha h1 with h | h | h
      · exact Or.inl h
      · exact Or.inr (Or.inl h)
      · exact Or.inr (Or.inr (h b hb h2))
  · rw [if_neg h1, if_pos h2]
    refine ⟨?_, ?_, ?_⟩
    · refine optSafe_right k1 ?_
      rcases hd b hb h2 with h | h | h
      · exact Or.inl h
      · exact Or.inr (Or.inl h)
      · exact Or.inr (Or.inr (fun hEq => h a ha h1 hEq))
    · refine optSafe_right k2 ?_
      rcases hg b hb h2 with h | h | h
      · exact Or.inl h
      · exact Or.inr (Or.inl h)
      · exact Or.inr (Or.inr (fun hEq => h a ha h1 hEq))
    · refine optSafe_right k3 ?_
      rcases he b hb h2 with h | h | h
      · exact Or.inl h
      · exact Or.inr (Or.inl h)
      · exact Or.inr (Or.inr (fun hEq => h a ha h1 hEq))
  · rw [if_neg h1, if_neg h2]
    exact ⟨k1, k2, k3⟩

theorem violatesUnique_false_facts {db : DB} {did gid em : Option String}
    (h : violatesUnique db did gid em = false) :
    ∀ u ∈ db.users,
      (did = none ∨ u.discord_id ≠ did) ∧ (gid = none ∨ u.google_id ≠ gid) ∧
      (em = none ∨ u.email ≠ em) := by
  intro u hu
  unfold violatesUnique at h
  have hU := List.any_eq_false.mp h u hu
  simp only [Bool.or_eq_true, Bool.and_eq_true, beq_iff_eq, not_or,
    Option.isSome_iff_exists] at hU
  refine ⟨?_, ?_, ?_⟩
  · cases hdid : did with
    | none => exact Or.inl rfl
    | some s =>
      refine Or.inr (fun hEq => ?_)
      exact hU.1.1 ⟨⟨s, hdid⟩, by rw [hEq, hdid]⟩
  · cases hgid : gid with
    | none => exact Or.inl rfl
    | some s =>
      refine Or.inr (fun hEq => ?_)
      exact hU.1.2 ⟨⟨s, hgid⟩, by rw [hEq, hgid]⟩
  · cases hem : em with
    | none => exact Or.inl rfl
    | some s =>
      refine Or.inr (fun hEq => ?_)
      exact hU.2 ⟨⟨s, hem⟩, by rw [hEq, hem]⟩

theorem wf_insertUser (db : DB) (did gid em : Option String) (un : String)
    (hWF : WF db) : WF (insertUser db did gid em un).1 := by
  obtain ⟨h1, h2⟩ := hWF
  unfold insertUser
  by_cases h : violatesUnique db did gid em = true
  · rw [if_pos h]
    exact ⟨h1, h2⟩
  · rw [if_neg h]
    constructor
    · show (db.users ++ [_]).Pairwise _
      rw [List.pairwise_append]
      refine ⟨h1, List.pairwise_singleton _ _, ?_⟩
      intro a ha b hb
      rw [List.mem_singleton.mp hb]
      exact Nat.ne_of_lt (h2 a ha)
    · intro u hu
      rcases List.mem_append.mp hu with hm | hm
      · exact Nat.lt_trans (h2 u hm) (Nat.lt_succ_self _)
      · rw [List.mem_singleton.mp hm]
        exact Nat.lt_succ_self _

theorem keyInv_insertUser (db : DB) (did gid em : Option String) (un : String)
    (hInv : KeyInv db) : KeyInv (insertUser db did gid em un).1 := by
  unfold insertUser
  by_cases h : violatesUnique db did gid em = true
  · rw [if_pos h]
    exact hInv
  · rw [if_neg h]
    show (db.users ++ [_]).Pairwise keyDistinct
    rw [List.pairwise_append]
    refine ⟨hInv, List.pairwise_singleton _ _, ?_⟩
    intro a ha b hb
    rw [List.mem_singleton.mp hb]
    have hfacts := violatesUnique_false_facts (Bool.not_eq_true _ ▸ h) a ha
    refine ⟨?_, ?_, ?_⟩
    · rcases hfacts.1 with hcase | hcase
      · cases had : a.discord_id with
        | none => exact Or.inl rfl
        | some s => exact Or.inr (by simp [hcase])
      · exact Or.inr hcase
    · rcases hfacts.2.1 with hcase | hcase
      · cases hag : a.google_id with
        | none => exact Or.inl rfl
        | some s => exact Or.inr (by simp [hcase])
      · exact Or.inr hcase
    · rcases hfacts.2.2 with hcase | hcase
      · cases hae : a.email with
        | none => exact Or.inl rfl
        | some s => exact Or.inr (by simp [hcase])
      · exact Or.inr hcase

theorem keyInv_discord_count {db : DB} (hInv : KeyInv db) (did : String) :
    (db.users.filter (fun u => u.discord_id == some did)).length ≤ 1 := by
  refine length_filter_le_one_of_pairwise hInv _ (fun a b ha hb => ?_)
  intro hkd
  have ha2 : a.discord_id = some did := by simpa using ha
  have hb2 : b.discord_id = some did := by simpa using hb
  rcases hkd.1 with h | h
  · rw [h] at ha2; cases ha2
  · exact h (ha2.trans hb2.symm)

/-! ### Field behaviour of the committed update functions -/

theorem pyLower_ne_empty {s : String} (h : s ≠ "") : pyLower s ≠ "" := by
  intro hEq
  apply h
  apply String.ext
  have h2 : (String.mk (s.data.map Char.toLower)).data = ("" : String).data :=
    congrArg String.data hEq
  simp at h2
  simp [h2]

theorem findUserById_self {db : DB} (hid : db.users.Pairwise (fun u v => u.id ≠ v.id))
    {u : User} (hu : u ∈ db.users) : findUserById db u.id = some u := by
  unfold findUserById
  cases hf : db.users.find? (fun v => v.id == u.id) with
  | none =>
    exfalso
    exact (List.find?_eq_none.mp hf u hu) (by simp)
  | some v =>
    have hv : v ∈ db.users := List.mem_of_find?_eq_some hf
    have hvid : v.id = u.id := by simpa using List.find?_some hf
    rw [user_id_unique hid hv hu hvid]

theorem fillUsername_fields (un : String) (u : User) :
    (fillUsername un u).id = u.id ∧ (fillUsername un u).discord_id = u.discord_id ∧
      (fillUsername un u).google_id = u.google_id ∧ (fillUsername un u).email = u.email := by
  unfold fillUsername
  split <;> exact ⟨rfl, rfl, rfl, rfl⟩

theorem attachDiscordUpdate_fields (did un : String) (u : User) :
    (attachDiscordUpdate did un u).id = u.id ∧
      (attachDiscordUpdate did un u).discord_id = some did ∧
      (attachDiscordUpdate did un u).google_id = u.google_id ∧
      (attachDiscordUpdate did un u).email = u.email := by
  unfold attachDiscordUpdate fillUsername
  split <;> exact ⟨rfl, rfl, rfl, rfl⟩

theorem attachGoogleUpdate_fields (gid un : String) (u : User) :
    (attachGoogleUpdate gid un u).id = u.id ∧
      (attachGoogleUpdate gid un u).discord_id = u.discord_id ∧
      (attachGoogleUpdate gid un u).google_id = some gid ∧
      (attachGoogleUpdate gid un u).email = u.email := by
  unfold attachGoogleUpdate fillUsername
  split <;> exact ⟨rfl, rfl, rfl, rfl⟩

theorem ghostPromoteUpdate_fields (un em : String) (u : User) :
    (ghostPromoteUpdate un em u).id = u.id ∧
      (ghostPromoteUpdate un em u).discord_id = u.discord_id ∧
      (ghostPromoteUpdate un em u).google_id = u.google_id ∧
      (ghostPromoteUpdate un em u).email = some em := by
  unfold ghostPromoteUpdate fillUsername
  split <;> exact ⟨rfl, rfl, rfl, rfl⟩

theorem sameRowEmailUpdate_fields (em : String) (u : User) :
    (sameRowEmailUpdate em u).id = u.id ∧
      (sameRowEmailUpdate em u).discord_id = u.discord_id ∧
      (sameRowEmailUpdate em u).google_id = u.google_id := by
  unfold sameRowEmailUpdate
  split <;> exact ⟨rfl, rfl, rfl⟩

theorem sameRowEmailUpdate_email_unchanged (em : String) (u : User)
    (h : pyFalsy u.email = false) : sameRowEmailUpdate em u = u := by
  unfold sameRowEmailUpdate
  rw [if_neg]
  simp [h]

theorem googleNoEmailUserUpdate_fields (un em : String) (u : User) :
    (googleNoEmailUserUpdate un em u).id = u.id ∧
      (googleNoEmailUserUpdate un em u).discord_id = u.discord_id ∧
      (googleNoEmailUserUpdate un em u).google_id = u.google_id := by
  unfold googleNoEmailUserUpdate fillUsername
  split <;> split <;> exact ⟨rfl, rfl, rfl⟩

theorem googleNoEmailUserUpdate_email (un em : String) (u : User) :
    (googleNoEmailUserUpdate un em u).email = u.email ∨
      ((googleNoEmailUserUpdate un em u).email = some em ∧ em ≠ "") := by
  unfold googleNoEmailUserUpdate fillUsername
  by_cases hc : em ≠ "" ∧ pyFalsy u.email = true
  · rw [if_pos hc]
    right
    constructor
    · split <;> rfl
    · exact hc.1
  · rw [if_neg hc]
    left
    split <;> rfl

theorem explicitLinkUpdate_fields (setPid : User → User) (un em : String)
    (oe : Option String) (u : User) :
    (explicitLinkUpdate setPid un em oe u).id = (setPid u).id ∧
      (explicitLinkUpdate setPid un em oe u).discord_id = (setPid u).discord_id ∧
      (explicitLinkUpdate setPid un em oe u).google_id = (setPid u).google_id := by
  unfold explicitLinkUpdate fillUsername
  dsimp only
  split <;> split <;> split <;> exact ⟨rfl, rfl, rfl⟩

theorem explicitLinkUpdate_email (setPid : User → User)
    (hsp : ∀ v, (setPid v).email = v.email) (un em : String) (u : User) :
    (explicitLinkUpdate setPid un em u.email u).email = u.email ∨
      ((explicitLinkUpdate setPid un em u.email u).email = some em ∧
        pyFalsy u.email = true ∧ em ≠ "") := by
  unfold explicitLinkUpdate
  dsimp only
  by_cases hc : em ≠ "" ∧ pyFalsy (setPid u).email = true
  · have hfal : pyFalsy u.email = true := by rw [← hsp u]; exact hc.2
    rw [if_pos hc, if_neg (by simp [hfal])]
    right
    refine ⟨?_, hfal, hc.1⟩
    rw [(fillUsername_fields un _).2.2.2]
  · rw [if_neg hc]
    left
    have he1 : (setPid u).email = u.email := hsp u
    rw [if_neg (by simp [he1])]
    rw [(fillUsername_fields un _).2.2.2, he1]

theorem linkDiscordUpdate_fields (did em : String) (oe : Option String) (u : User) :
    (linkDiscordUpdate did em oe u).id = u.id ∧
      (linkDiscordUpdate did em oe u).discord_id = some did ∧
      (linkDiscordUpdate did em oe u).google_id = u.google_id := by
  unfold linkDiscordUpdate
  dsimp only
  split <;> split <;> exact ⟨rfl, rfl, rfl⟩

theorem linkDiscordUpdate_email (did em : String) (u : User) :
    (linkDiscordUpdate did em u.email u).email = u.email ∨
      ((linkDiscordUpdate did em u.email u).email = some em ∧
        pyFalsy u.email = true ∧ em ≠ "") := by
  unfold linkDiscordUpdate
  dsimp only
  by_cases hc : em ≠ "" ∧ pyFalsy ({ u with discord_id := some did } : User).email = true
  · have hfal : pyFalsy u.email = true := hc.2
    rw [if_pos hc, if_neg (by simp [hfal])]
    right
    exact ⟨rfl, hfal, hc.1⟩
  · rw [if_neg hc]
    left
    rw [if_neg (by simp)]

/-- When the conflict check of the explicit-link flows comes back clean and the
row being linked still has no usable email, nobody else holds the provider
email exactly. -/
theorem conflict_clean_email_free {db1 : DB} {em : String} {uid : Nat}
    (hWFid : db1.users.Pairwise (fun u v => u.id ≠ v.id))
    (hem : em ≠ "")
    (hcon : ∀ eeu, get_user_by_email db1 em = some eeu → eeu.id = uid)
    {u0 : User} (hu0 : u0 ∈ db1.users) (hu0id : u0.id = uid)
    (hfal : pyFalsy u0.email = true) :
    ∀ v ∈ db1.users, v.id ≠ uid → v.email ≠ some em := by
  intro v hv hvid
  cases hm : get_user_by_email db1 em with
  | none => exact get_user_by_email_none hem hm v hv
  | some eeu =>
    have heeu : eeu.id = uid := hcon eeu hm
    rcases get_user_by_email_some hem hm with ⟨heeumem, e, hee, hlow⟩
    have heq : eeu = u0 := user_id_unique hWFid heeumem hu0 (heeu.trans hu0id.symm)
    rw [heq, ] at hee
    rw [hee] at hfal
    have hE : e = "" := by simpa [pyFalsy, String.isEmpty_iff] using hfal
    rw [hE] at hlow
    exact absurd hlow.symm (by simpa [pyLower] using pyLower_ne_empty hem)

/-! ### Invariant preservation by the explicit-link updates -/

theorem wf_keyInv_explicit_discord (db1 : DB) (uid : Nat) (user : User)
    (did un em : String)
    (hWF1 : WF db1) (hInv1 : KeyInv db1)
    (hrow : ∀ u0 ∈ db1.users, u0.id = uid → u0.email = user.email)
    (hfree : ∀ v ∈ db1.users, v.id ≠ uid → v.discord_id ≠ some did)
    (hcon : ∀ eeu, get_user_by_email db1 em = some eeu → eeu.id = uid) :
    WF (updateUserRow db1 uid
        (explicitLinkUpdate (fun u => { u with discord_id := some did }) un em user.email)) ∧
      KeyInv (updateUserRow db1 uid
        (explicitLinkUpdate (fun u => { u with discord_id := some did }) un em user.email)) := by
  have hid : ∀ u, (explicitLinkUpdate (fun u => { u with discord_id := some did })
      un em user.email u).id = u.id :=
    fun u => (explicitLinkUpdate_fields _ un em user.email u).1
  refine ⟨wf_updateUserRow _ _ _ hid hWF1, ?_⟩
  refine keyInv_updateUserRow _ _ _ hWF1 hInv1 ?_ ?_ ?_
  · intro u0 hu0 hu0id
    refine Or.inr (Or.inr (fun v hv hvid => ?_))
    rw [(explicitLinkUpdate_fields _ un em user.email u0).2.1]
    exact fun hEq => hfree v hv hvid hEq.symm
  · intro u0 hu0 hu0id
    exact Or.inl (explicitLinkUpdate_fields _ un em user.email u0).2.2
  · intro u0 hu0 hu0id
    have hoe : user.email = u0.email := (hrow u0 hu0 hu0id).symm
    rw [hoe]
    rcases explicitLinkUpdate_email (fun u => { u with discord_id := some did })
        (fun _ => rfl) un em u0 with h | ⟨hsome, hfal, hemne⟩
    · exact Or.inl h
    · refine Or.inr (Or.inr (fun v hv hvid => ?_))
      rw [hsome]
      exact fun hEq =>
        conflict_clean_email_free hWF1.1 hemne hcon hu0 hu0id hfal v hv hvid hEq.symm

theorem wf_keyInv_explicit_google (db1 : DB) (uid : Nat) (user : User)
    (gid un em : String)
    (hWF1 : WF db1) (hInv1 : KeyInv db1)
    (hrow : ∀ u0 ∈ db1.users, u0.id = uid → u0.email = user.email)
    (hfree : ∀ v ∈ db1.users, v.id ≠ uid → v.google_id ≠ some gid)
    (hcon : ∀ eeu, get_user_by_email db1 em = some eeu → eeu.id = uid) :
    WF (updateUserRow db1 uid
        (explicitLinkUpdate (fun u => { u with google_id := some gid }) un em user.email)) ∧
      KeyInv (updateUserRow db1 uid
        (explicitLinkUpdate (fun u => { u with google_id := some gid }) un em user.email)) := by
  have hid : ∀ u, (explicitLinkUpdate (fun u => { u with google_id := some gid })
      un em user.email u).id = u.id :=
    fun u => (explicitLinkUpdate_fields _ un em user.email u).1
  refine ⟨wf_updateUserRow _ _ _ hid hWF1, ?_⟩
  refine keyInv_updateUserRow _ _ _ hWF1 hInv1 ?_ ?_ ?_
  · intro u0 hu0 hu0id
    exact Or.inl (explicitLinkUpdate_fields _ un em user.email u0).2.1
  · intro u0 hu0 hu0id
    refine Or.inr (Or.inr (fun v hv hvid => ?_))
    rw [(explicitLinkUpdate_fields _ un em user.email u0).2.2]
    exact fun hEq => hfree v hv hvid hEq.symm
  · intro u0 hu0 hu0id
    have hoe : user.email = u0.email := (hrow u0 hu0 hu0id).symm
    rw [hoe]
    rcases explicitLinkUpdate_email (fun u => { u with google_id := some gid })
        (fun _ => rfl) un em u0 with h | ⟨hsome, hfal, hemne⟩
    · exact Or.inl h
    · refine Or.inr (Or.inr (fun v hv hvid => ?_))
      rw [hsome]
      exact fun hEq =>
        conflict_clean_email_free hWF1.1 hemne hcon hu0 hu0id hfal v hv hvid hEq.symm

theorem wf_keyInv_link_update (db1 : DB) (uid : Nat) (oe : Option String)
    (did em : String)
    (hWF1 : WF db1) (hInv1 : KeyInv db1)
    (hrow : ∀ u0 ∈ db1.users, u0.id = uid → u0.email = oe)
    (hfree : ∀ v ∈ db1.users, v.id ≠ uid → v.discord_id ≠ some did)
    (hcon : ∀ eeu, get_user_by_email db1 em = some eeu → eeu.id = uid) :
    WF (updateUserRow db1 uid (linkDiscordUpdate did em oe)) ∧
      KeyInv (updateUserRow db1 uid (linkDiscordUpdate did em oe)) := by
  have hid : ∀ u, (linkDiscordUpdate did em oe u).id = u.id :=
    fun u => (linkDiscordUpdate_fields did em oe u).1
  refine ⟨wf_updateUserRow _ _ _ hid hWF1, ?_⟩
  refine keyInv_updateUserRow _ _ _ hWF1 hInv1 ?_ ?_ ?_
  · intro u0 hu0 hu0id
    refine Or.inr (Or.inr (fun v hv hvid => ?_))
    rw [(linkDiscordUpdate_fields did em oe u0).2.1]
    exact fun hEq => hfree v hv hvid hEq.symm
  · intro u0 hu0 hu0id
    exact Or.inl (linkDiscordUpdate_fields did em oe u0).2.2
  · intro u0 hu0 hu0id
    have hoe : oe = u0.email := (hrow u0 hu0 hu0id).symm
    rw [hoe]
    rcases linkDiscordUpdate_email did em u0 with h | ⟨hsome, hfal, hemne⟩
    · exact Or.inl h
    · refine Or.inr (Or.inr (fun v hv hvid => ?_))
      rw [hsome]
      exact fun hEq =>
        conflict_clean_email_free hWF1.1 hemne hcon hu0 hu0id hfal v hv hvid hEq.symm

theorem conflict_neg_fact {db1 : DB} {em : String} {uid : Nat}
    (h : ¬ ((if em ≠ "" then
          match get_user_by_email db1 em with
          | some eeu => decide (eeu.id ≠ uid)
          | none => false
        else false) = true)) :
    ∀ eeu, get_user_by_email db1 em = some eeu → eeu.id = uid := by
  intro eeu hm
  by_contra hne
  apply h
  have hem : em ≠ "" := by
    intro hE
    rw [hE] at hm
    simp [get_user_by_email] at hm
  rw [if_pos hem, hm]
  simpa using hne

theorem wf_keyInv_update_keys_unchanged (db : DB) (uid : Nat) (f : User → User)
    (hWF : WF db) (hInv : KeyInv db)
    (hid : ∀ u, (f u).id = u.id)
    (hfields : ∀ u, (f u).discord_id = u.discord_id ∧ (f u).google_id = u.google_id ∧
      (f u).email = u.email) :
    WF (updateUserRow db uid f) ∧ KeyInv (updateUserRow db uid f) :=
  ⟨wf_updateUserRow _ _ _ hid hWF,
   keyInv_updateUserRow _ _ _ hWF hInv (fun u _ _ => Or.inl (hfields u).1)
     (fun u _ _ => Or.inl (hfields u).2.1) (fun u _ _ => Or.inl (hfields u).2.2)⟩

theorem wf_keyInv_update_discord_set (db1 : DB) (uid : Nat) (f : User → User) (did : String)
    (hWF1 : WF db1) (hInv1 : KeyInv db1)
    (hid : ∀ u, (f u).id = u.id)
    (hdset : ∀ u, (f u).discord_id = some did)
    (hgu : ∀ u, (f u).google_id = u.google_id)
    (heu : ∀ u, (f u).email = u.email)
    (hfree : ∀ v ∈ db1.users, v.id ≠ uid → v.discord_id ≠ some did) :
    WF (updateUserRow db1 uid f) ∧ KeyInv (updateUserRow db1 uid f) := by
  refine ⟨wf_updateUserRow _ _ _ hid hWF1, ?_⟩
  refine keyInv_updateUserRow _ _ _ hWF1 hInv1 ?_ ?_ ?_
  · intro u0 _ _
    refine Or.inr (Or.inr (fun v hv hvid => ?_))
    rw [hdset u0]
    exact fun hEq => hfree v hv hvid hEq.symm
  · exact fun u0 _ _ => Or.inl (hgu u0)
  · exact fun u0 _ _ => Or.inl (heu u0)

theorem wf_keyInv_update_google_set (db1 : DB) (uid : Nat) (f : User → User) (gid : String)
    (hWF1 : WF db1) (hInv1 : KeyInv db1)
    (hid : ∀ u, (f u).id = u.id)
    (hgset : ∀ u, (f u).google_id = some gid)
    (hdu : ∀ u, (f u).discord_id = u.discord_id)
    (heu : ∀ u, (f u).email = u.email)
    (hfree : ∀ v ∈ db1.users, v.id ≠ uid → v.google_id ≠ some gid) :
    WF (updateUserRow db1 uid f) ∧ KeyInv (updateUserRow db1 uid f) := by
  refine ⟨wf_updateUserRow _ _ _ hid hWF1, ?_⟩
  refine keyInv_updateUserRow _ _ _ hWF1 hInv1 ?_ ?_ ?_
  · exact fun u0 _ _ => Or.inl (hdu u0)
  · intro u0 _ _
    refine Or.inr (Or.inr (fun v hv hvid => ?_))
    rw [hgset u0]
    exact fun hEq => hfree v hv hvid hEq.symm
  · exact fun u0 _ _ => Or.inl (heu u0)

theorem wf_keyInv_update_email_set (db1 : DB) (uid : Nat) (f : User → User) (em : String)
    (hWF1 : WF db1) (hInv1 : KeyInv db1)
    (hid : ∀ u, (f u).id = u.id)
    (heset : ∀ u, (f u).email = u.email ∨ (f u).email = some em)
    (hdu : ∀ u, (f u).discord_id = u.discord_id)
    (hgu : ∀ u, (f u).google_id = u.google_id)
    (hfree : ∀ v ∈ db1.users, v.email ≠ some em) :
    WF (updateUserRow db1 uid f) ∧ KeyInv (updateUserRow db1 uid f) := by
  refine ⟨wf_updateUserRow _ _ _ hid hWF1, ?_⟩
  refine keyInv_updateUserRow _ _ _ hWF1 hInv1 ?_ ?_ ?_
  · exact fun u0 _ _ => Or.inl (hdu u0)
  · exact fun u0 _ _ => Or.inl (hgu u0)
  · intro u0 _ _
    rcases heset u0 with h | h
    · exact Or.inl h
    · refine Or.inr (Or.inr (fun v hv hvid => ?_))
      rw [h]
      exact fun hEq => hfree v hv hEq.symm

theorem wf_keyInv_insert_fst (db : DB) (did gid em : Option String) (un : String)
    (hWF : WF db) (hInv : KeyInv db) {db2 : DB} {r : Option User}
    (hins : insertUser db did gid em un = (db2, r)) : WF db2 ∧ KeyInv db2 := by
  have h1 := wf_insertUser db did gid em un hWF
  have h2 := keyInv_insertUser db did gid em un hInv
  rw [hins] at h1 h2
  exact ⟨h1, h2⟩

theorem wf_keyInv_conflict_ite (db1 : DB) (uidv : Nat) (f : User → User) (em : String)
    (hWF1 : WF db1) (hInv1 : KeyInv db1)
    (hupd : (∀ eeu, get_user_by_email db1 em = some eeu → eeu.id = uidv) →
        WF (updateUserRow db1 uidv f) ∧ KeyInv (updateUserRow db1 uidv f)) :
    WF (if (if em ≠ "" then
          match get_user_by_email db1 em with
          | some eeu => decide (eeu.id ≠ uidv)
          | none => false
        else false) = true then db1 else updateUserRow db1 uidv f) ∧
      KeyInv (if (if em ≠ "" then
          match get_user_by_email db1 em with
          | some eeu => decide (eeu.id ≠ uidv)
          | none => false
        else false) = true then db1 else updateUserRow db1 uidv f) := by
  by_cases hc : (if em ≠ "" then
      match get_user_by_email db1 em with
      | some eeu => decide (eeu.id ≠ uidv)
      | none => false
    else false) = true
  · rw [if_pos hc]
    exact ⟨hWF1, hInv1⟩
  · rw [if_neg hc]
    exact hupd (conflict_neg_fact hc)

theorem wf_keyInv_discordInner (db : DB) (did un em : String) (uid? : Option Nat)
    (hWF : WF db) (hInv : KeyInv db) :
    WF (discordCallbackInner db did un em uid?).1 ∧
      KeyInv (discordCallbackInner db did un em uid?).1 := by
  unfold discordCallbackInner
  try dsimp only
  by_cases hexp : explicitTarget uid? = true
  · rw [if_pos hexp]
    cases hfind : findUserById db (uid?.getD 0) with
    | some user =>
      try dsimp only
      have huser := findUserById_some hfind
      cases hedu : get_user_by_discord_id db did with
      | some edu =>
        try dsimp only
        have hedu2 := get_user_by_discord_id_some hedu
        by_cases hne : edu.id ≠ user.id
        · rw [if_pos hne, apply_ite Prod.fst]
          try dsimp only
          refine wf_keyInv_conflict_ite _ _ _ em
            (wf_merge _ _ _ hWF) (keyInv_merge _ _ _ hInv) (fun hcon => ?_)
          apply wf_keyInv_explicit_discord _ _ user did un em
            (wf_merge _ _ _ hWF) (keyInv_merge _ _ _ hInv) ?_ ?_ hcon
          · intro u0 hu0 hid0
            obtain ⟨hu0db, _⟩ := merge_mem_users_elim hu0
            rw [user_id_unique hWF.1 hu0db huser.1 (hid0.trans huser.2.symm)]
          · intro v hv hvid hEq
            obtain ⟨hvdb, hvne⟩ := merge_mem_users_elim hv
            have hveq : v = edu :=
              discord_holder_unique hInv hvdb hedu2.1 (by rw [hEq]; simp)
                (hEq.trans hedu2.2.symm)
            exact hvne (by rw [hveq])
        · rw [if_neg hne, apply_ite Prod.fst]
          try dsimp only
          have heq : edu.id = user.id := not_not.mp hne
          refine wf_keyInv_conflict_ite _ _ _ em hWF hInv (fun hcon => ?_)
          apply wf_keyInv_explicit_discord db _ user did un em hWF hInv ?_ ?_ hcon
          · intro u0 hu0 hid0
            rw [user_id_unique hWF.1 hu0 huser.1 (hid0.trans huser.2.symm)]
          · intro v hv hvid hEq
            have hveq : v = edu :=
              discord_holder_unique hInv hv hedu2.1 (by rw [hEq]; simp)
                (hEq.trans hedu2.2.symm)
            apply hvid
            rw [hveq, heq, huser.2]
      | none =>
        try dsimp only
        rw [apply_ite Prod.fst]
        try dsimp only
        refine wf_keyInv_conflict_ite _ _ _ em hWF hInv (fun hcon => ?_)
        apply wf_keyInv_explicit_discord db _ user did un em hWF hInv ?_ ?_ hcon
        · intro u0 hu0 hid0
          rw [user_id_unique hWF.1 hu0 huser.1 (hid0.trans huser.2.symm)]
        · intro v hv hvid hEq
          exact get_user_by_discord_id_none hedu v hv hEq
    | none =>
      try dsimp only
      by_cases hem : em = ""
      · rw [if_pos hem]
        exact ⟨hWF, hInv⟩
      · rw [if_neg hem]
        rcases hins : insertUser db (some did) none (some em) un with ⟨db2, r⟩
        cases r <;> exact wf_keyInv_insert_fst db _ _ _ _ hWF hInv hins
  · rw [if_neg hexp]
    by_cases hem : em = ""
    · rw [if_neg (not_not_intro hem)]
      cases hg : get_user_by_discord_id db did with
      | some g =>
        try dsimp only
        rw [if_neg (not_not_intro hem)]
        exact wf_keyInv_update_keys_unchanged db g.id (fillUsername un) hWF hInv
          (fun u => (fillUsername_fields un u).1)
          (fun u => ⟨(fillUsername_fields un u).2.1, (fillUsername_fields un u).2.2.1,
            (fillUsername_fields un u).2.2.2⟩)
      | none =>
        try dsimp only
        rw [if_pos hem]
        exact ⟨hWF, hInv⟩
    · rw [if_pos hem]
      cases hg : get_user_by_discord_id db did with
      | some g =>
        try dsimp only
        have hg2 := get_user_by_discord_id_some hg
        cases hw : get_user_by_email db em with
        | some w =>
          try dsimp only
          have hw2 := get_user_by_email_some hem hw
          by_cases hgw : g.id ≠ w.id
          · rw [if_pos hgw]
            refine wf_keyInv_update_discord_set _ w.id _ did
              (wf_merge _ _ _ hWF) (keyInv_merge _ _ _ hInv)
              (fun u => (attachDiscordUpdate_fields did un u).1)
              (fun u => (attachDiscordUpdate_fields did un u).2.1)
              (fun u => (attachDiscordUpdate_fields did un u).2.2.1)
              (fun u => (attachDiscordUpdate_fields did un u).2.2.2)
              ?_
            intro v hv hvid hEq
            obtain ⟨hvdb, hvne⟩ := merge_mem_users_elim hv
            have hveq : v = g :=
              discord_holder_unique hInv hvdb hg2.1 (by rw [hEq]; simp)
                (hEq.trans hg2.2.symm)
            exact hvne (by rw [hveq])
          · rw [if_neg hgw]
            have hgweq : g.id = w.id := not_not.mp hgw
            have hwdb := hw2.1
            obtain ⟨e, hwe, hlow⟩ := hw2.2
            refine ⟨wf_updateUserRow _ _ _ (fun u => (sameRowEmailUpdate_fields em u).1) hWF, ?_⟩
            refine keyInv_updateUserRow _ _ _ hWF hInv
              (fun u _ _ => Or.inl (sameRowEmailUpdate_fields em u).2.1)
              (fun u _ _ => Or.inl (sameRowEmailUpdate_fields em u).2.2)
              ?_
            intro u0 hu0 hid0
            have hu0w : u0 = w := user_id_unique hWF.1 hu0 hwdb (hid0.trans hgweq)
            have hene : e ≠ "" := by
              intro hE
              apply pyLower_ne_empty hem
              rw [← hlow, hE]
              rfl
            have hfal : pyFalsy u0.email = false := by
              rw [hu0w, hwe]
              show e.isEmpty = false
              rw [Bool.eq_false_iff]
              exact fun hT => hene ((String.isEmpty_iff e).mp hT)
            exact Or.inl (by rw [sameRowEmailUpdate_email_unchanged em u0 hfal])
        | none =>
          try dsimp only
          rw [if_pos hem]
          refine wf_keyInv_update_email_set db g.id _ em hWF hInv
            (fun u => (ghostPromoteUpdate_fields un em u).1)
            (fun u => Or.inr (ghostPromoteUpdate_fields un em u).2.2.2)
            (fun u => (ghostPromoteUpdate_fields un em u).2.1)
            (fun u => (ghostPromoteUpdate_fields un em u).2.2.1)
            (fun v hv => get_user_by_email_none hem hw v hv)
      | none =>
        try dsimp only
        cases hw : get_user_by_email db em with
        | some w =>
          try dsimp only
          refine wf_keyInv_update_discord_set db w.id _ did hWF hInv
            (fun u => (attachDiscordUpdate_fields did un u).1)
            (fun u => (attachDiscordUpdate_fields did un u).2.1)
            (fun u => (attachDiscordUpdate_fields did un u).2.2.1)
            (fun u => (attachDiscordUpdate_fields did un u).2.2.2)
            ?_
          intro v hv hvid hEq
          exact get_user_by_discord_id_none hg v hv hEq
        | none =>
          try dsimp only
          rw [if_neg hem]
          rcases hins : insertUser db (some did) none (some em) un with ⟨db2, r⟩
          cases r <;> exact wf_keyInv_insert_fst db _ _ _ _ hWF hInv hins

theorem wf_keyInv_googleInner (db : DB) (gid un em : String) (uid? : Option Nat)
    (hWF : WF db) (hInv : KeyInv db) :
    WF (googleCallbackInner db gid un em uid?).1 ∧
      KeyInv (googleCallbackInner db gid un em uid?).1 := by
  unfold googleCallbackInner
  try dsimp only
  by_cases hexp : explicitTarget uid? = true
  · rw [if_pos hexp]
    cases hfind : findUserById db (uid?.getD 0) with
    | some user =>
      try dsimp only
      have huser := findUserById_some hfind
      cases hegu : get_user_by_google_id db gid with
      | some egu =>
        try dsimp only
        have hegu2 := get_user_by_google_id_some hegu
        by_cases hne : egu.id ≠ user.id
        · rw [if_pos hne, apply_ite Prod.fst]
          try dsimp only
          refine wf_keyInv_conflict_ite _ _ _ em
            (wf_merge _ _ _ hWF) (keyInv_merge _ _ _ hInv) (fun hcon => ?_)
          apply wf_keyInv_explicit_google _ _ user gid un em
            (wf_merge _ _ _ hWF) (keyInv_merge _ _ _ hInv) ?_ ?_ hcon
          · intro u0 hu0 hid0
            obtain ⟨hu0db, _⟩ := merge_mem_users_elim hu0
            rw [user_id_unique hWF.1 hu0db huser.1 (hid0.trans huser.2.symm)]
          · intro v hv hvid hEq
            obtain ⟨hvdb, hvne⟩ := merge_mem_users_elim hv
            have hveq : v = egu :=
              google_holder_unique hInv hvdb hegu2.1 (by rw [hEq]; simp)
                (hEq.trans hegu2.2.symm)
            exact hvne (by rw [hveq])
        · rw [if_neg hne, apply_ite Prod.fst]
          try dsimp only
          have heq : egu.id = user.id := not_not.mp hne
          refine wf_keyInv_conflict_ite _ _ _ em hWF hInv (fun hcon => ?_)
          apply wf_keyInv_explicit_google db _ user gid un em hWF hInv ?_ ?_ hcon
          · intro u0 hu0 hid0
            rw [user_id_unique hWF.1 hu0 huser.1 (hid0.trans huser.2.symm)]
          · intro v hv hvid hEq
            have hveq : v = egu :=
              google_holder_unique hInv hv hegu2.1 (by rw [hEq]; simp)
                (hEq.trans hegu2.2.symm)
            apply hvid
            rw [hveq, heq, huser.2]
      | none =>
        try dsimp only
        rw [apply_ite Prod.fst]
        try dsimp only
        refine wf_keyInv_conflict_ite _ _ _ em hWF hInv (fun hcon => ?_)
        apply wf_keyInv_explicit_google db _ user gid un em hWF hInv ?_ ?_ hcon
        · intro u0 hu0 hid0
          rw [user_id_unique hWF.1 hu0 huser.1 (hid0.trans huser.2.symm)]
        · intro v hv hvid hEq
          exact get_user_by_google_id_none hegu v hv hEq
    | none =>
      try dsimp only
      by_cases hem : em = ""
      · rw [if_pos hem]
        exact ⟨hWF, hInv⟩
      · rw [if_neg hem]
        rcases hins : insertUser db none (some gid) (some em) un with ⟨db2, r⟩
        cases r <;> exact wf_keyInv_insert_fst db _ _ _ _ hWF hInv hins
  · rw [if_neg hexp]
    by_cases hem : em = ""
    · rw [if_neg (not_not_intro hem)]
      cases hg : get_user_by_google_id db gid with
      | some g =>
        try dsimp only
        refine wf_keyInv_update_keys_unchanged db g.id (googleNoEmailUserUpdate un em) hWF hInv
          (fun u => (googleNoEmailUserUpdate_fields un em u).1) ?_
        intro u
        refine ⟨(googleNoEmailUserUpdate_fields un em u).2.1,
          (googleNoEmailUserUpdate_fields un em u).2.2, ?_⟩
        rcases googleNoEmailUserUpdate_email un em u with h | ⟨_, hemne⟩
        · exact h
        · exact absurd hem hemne
      | none =>
        try dsimp only
        rw [if_pos hem]
        exact ⟨hWF, hInv⟩
    · rw [if_pos hem]
      cases hg : get_user_by_google_id db gid with
      | some g =>
        try dsimp only
        have hg2 := get_user_by_google_id_some hg
        cases hw : get_user_by_email db em with
        | some w =>
          try dsimp only
          by_cases hgw : g.id ≠ w.id
          · rw [if_pos hgw]
            refine wf_keyInv_update_google_set _ w.id _ gid
              (wf_merge _ _ _ hWF) (keyInv_merge _ _ _ hInv)
              (fun u => (attachGoogleUpdate_fields gid un u).1)
              (fun u => (attachGoogleUpdate_fields gid un u).2.2.1)
              (fun u => (attachGoogleUpdate_fields gid un u).2.1)
              (fun u => (attachGoogleUpdate_fields gid un u).2.2.2)
              ?_
            intro v hv hvid hEq
            obtain ⟨hvdb, hvne⟩ := merge_mem_users_elim hv
            have hveq : v = g :=
              google_holder_unique hInv hvdb hg2.1 (by rw [hEq]; simp)
                (hEq.trans hg2.2.symm)
            exact hvne (by rw [hveq])
          · rw [if_neg hgw]
            exact ⟨hWF, hInv⟩
        | none =>
          try dsimp only
          refine wf_keyInv_update_email_set db g.id _ em hWF hInv
            (fun u => (googleNoEmailUserUpdate_fields un em u).1)
            (fun u => (googleNoEmailUserUpdate_email un em u).imp_right (fun h => h.1))
            (fun u => (googleNoEmailUserUpdate_fields un em u).2.1)
            (fun u => (googleNoEmailUserUpdate_fields un em u).2.2)
            (fun v hv => get_user_by_email_none hem hw v hv)
      | none =>
        try dsimp only
        cases hw : get_user_by_email db em with
        | some w =>
          try dsimp only
          refine wf_keyInv_update_google_set db w.id _ gid hWF hInv
            (fun u => (attachGoogleUpdate_fields gid un u).1)
            (fun u => (attachGoogleUpdate_fields gid un u).2.2.1)
            (fun u => (attachGoogleUpdate_fields gid un u).2.1)
            (fun u => (attachGoogleUpdate_fields gid un u).2.2.2)
            ?_
          intro v hv hvid hEq
          exact get_user_by_google_id_none hg v hv hEq
        | none =>
          try dsimp only
          rw [if_neg hem]
          rcases hins : insertUser db none (some gid) (some em) un with ⟨db2, r⟩
          cases r <;> exact wf_keyInv_insert_fst db _ _ _ _ hWF hInv hins

theorem wf_keyInv_linkInner (db : DB) (cuId : Nat) (did em : String)
    (hWF : WF db) (hInv : KeyInv db) :
    WF (linkDiscordInner db cuId did em).1 ∧ KeyInv (linkDiscordInner db cuId did em).1 := by
  unfold linkDiscordInner
  try dsimp only
  cases hcu : findUserById db cuId with
  | none => exact ⟨hWF, hInv⟩
  | some cu =>
    try dsimp only
    have hcu2 := findUserById_some hcu
    cases hedu : get_user_by_discord_id db did with
    | some edu =>
      try dsimp only
      have hedu2 := get_user_by_discord_id_some hedu
      by_cases hne : edu.id ≠ cu.id
      · rw [if_pos hne]
        have hcumem : cu ∈ (merge_user_accounts db edu cu).users :=
          merge_mem_users hcu2.1 (Ne.symm hne)
        have hfind1 : findUserById (merge_user_accounts db edu cu) cuId = some cu := by
          rw [← hcu2.2]
          exact findUserById_self (wf_merge db edu cu hWF).1 hcumem
        rw [hfind1, apply_ite Prod.fst]
        try dsimp only
        refine wf_keyInv_conflict_ite _ _ _ em
          (wf_merge _ _ _ hWF) (keyInv_merge _ _ _ hInv) (fun hcon => ?_)
        apply wf_keyInv_link_update _ cuId cu.email did em
          (wf_merge _ _ _ hWF) (keyInv_merge _ _ _ hInv) ?_ ?_ hcon
        · intro u0 hu0 hid0
          obtain ⟨hu0db, _⟩ := merge_mem_users_elim hu0
          rw [user_id_unique hWF.1 hu0db hcu2.1 (hid0.trans hcu2.2.symm)]
        · intro v hv hvid hEq
          obtain ⟨hvdb, hvne⟩ := merge_mem_users_elim hv
          have hveq : v = edu :=
            discord_holder_unique hInv hvdb hedu2.1 (by rw [hEq]; simp)
              (hEq.trans hedu2.2.symm)
          exact hvne (by rw [hveq])
      · rw [if_neg hne]
        have heq : edu.id = cu.id := not_not.mp hne
        rw [hcu, apply_ite Prod.fst]
        try dsimp only
        refine wf_keyInv_conflict_ite _ _ _ em hWF hInv (fun hcon => ?_)
        apply wf_keyInv_link_update db cuId cu.email did em hWF hInv ?_ ?_ hcon
        · intro u0 hu0 hid0
          rw [user_id_unique hWF.1 hu0 hcu2.1 (hid0.trans hcu2.2.symm)]
        · intro v hv hvid hEq
          have hveq : v = edu :=
            discord_holder_unique hInv hv hedu2.1 (by rw [hEq]; simp)
              (hEq.trans hedu2.2.symm)
          apply hvid
          rw [hveq, heq, hcu2.2]
    | none =>
      try dsimp only
      rw [hcu, apply_ite Prod.fst]
      try dsimp only
      refine wf_keyInv_conflict_ite _ _ _ em hWF hInv (fun hcon => ?_)
      apply wf_keyInv_link_update db cuId cu.email did em hWF hInv ?_ ?_ hcon
      · intro u0 hu0 hid0
        rw [user_id_unique hWF.1 hu0 hcu2.1 (hid0.trans hcu2.2.symm)]
      · intro v hv hvid hEq
        exact get_user_by_discord_id_none hedu v hv hEq

theorem wf_keyInv_botToken (db : DB) (did un : String)
    (hWF : WF db) (hInv : KeyInv db) :
    WF (get_discord_bot_token db did un).1 ∧ KeyInv (get_discord_bot_token db did un).1 := by
  unfold get_discord_bot_token
  cases hg : get_user_by_discord_id db did with
  | none =>
    exact ⟨hWF, hInv⟩
  | some u =>
    try dsimp only
    refine wf_keyInv_update_keys_unchanged db u.id _ hWF hInv ?_ ?_
    · intro v
      dsimp only
      split <;> rfl
    · intro v
      dsimp only
      split <;> exact ⟨rfl, rfl, rfl⟩

theorem wf_keyInv_applyAuthOp (db : DB) (op : AuthOp) (hWF : WF db) (hInv : KeyInv db) :
    WF (applyAuthOp db op) ∧ KeyInv (applyAuthOp db op) := by
  cases op with
  | discordCallback did un em uid? =>
    have hfst : (discord_oauth_callback db did un em uid?).1 =
        (discordCallbackInner db did un em uid?).1 := by
      unfold discord_oauth_callback
      rcases discordCallbackInner db did un em uid? with ⟨db1, r⟩
      cases r <;> rfl
    show WF (discord_oauth_callback db did un em uid?).1 ∧
      KeyInv (discord_oauth_callback db did un em uid?).1
    rw [hfst]
    exact wf_keyInv_discordInner db did un em uid? hWF hInv
  | googleCallback gid un em uid? =>
    have hfst : (google_oauth_callback db gid un em uid?).1 =
        (googleCallbackInner db gid un em uid?).1 := by
      unfold google_oauth_callback
      rcases googleCallbackInner db gid un em uid? with ⟨db1, r⟩
      cases r <;> rfl
    show WF (google_oauth_callback db gid un em uid?).1 ∧
      KeyInv (google_oauth_callback db gid un em uid?).1
    rw [hfst]
    exact wf_keyInv_googleInner db gid un em uid? hWF hInv
  | linkDiscord cuId did em =>
    have hfst : (link_discord_account db cuId did em).1 =
        (linkDiscordInner db cuId did em).1 := by
      unfold link_discord_account
      rcases linkDiscordInner db cuId did em with ⟨db1, r⟩
      cases r with
      | ok _ => rfl
      | error e => cases e <;> rfl
    show WF (link_discord_account db cuId did em).1 ∧
      KeyInv (link_discord_account db cuId did em).1
    rw [hfst]
    exact wf_keyInv_linkInner db cuId did em hWF hInv
  | botToken did un =>
    exact wf_keyInv_botToken db did un hWF hInv
  | mergeOp s t =>
    show WF (match findUserById db s, findUserById db t with
      | some su, some tu => if su.id ≠ tu.id then merge_user_accounts db su tu else db
      | _, _ => db) ∧ KeyInv (match findUserById db s, findUserById db t with
      | some su, some tu => if su.id ≠ tu.id then merge_user_accounts db su tu else db
      | _, _ => db)
    cases findUserById db s with
    | none => exact ⟨hWF, hInv⟩
    | some su =>
      cases findUserById db t with
      | none => exact ⟨hWF, hInv⟩
      | some tu =>
        dsimp only
        by_cases hne : su.id ≠ tu.id
        · rw [if_pos hne]
          exact ⟨wf_merge _ _ _ hWF, keyInv_merge _ _ _ hInv⟩
        · rw [if_neg hne]
          exact ⟨hWF, hInv⟩

/-! ### The claims -/

/-- C1 counterexample: merge_user_accounts keys on the verbatim position, so
the spec's example pairs do not collide.  Merging the spec's own rows leaves
all four processes on the target: the source ("Google", "Software Engineer")
and the target ("google", "SOFTWARE ENGINEER") both survive, as do
("Meta", "") and ("Meta", null) — not "exactly one surviving row" per pair as
the claim states. -/
theorem c1_counterexample :
    ({ id := 1, user_id := 2, company_name := "Google", position := some "Software Engineer" } : Process)
        ∈ (merge_user_accounts c1db c1src c1tgt).processes ∧
      ({ id := 2, user_id := 2, company_name := "google", position := some "SOFTWARE ENGINEER" } : Process)
        ∈ (merge_user_accounts c1db c1src c1tgt).processes ∧
      ({ id := 3, user_id := 2, company_name := "Meta", position := some "" } : Process)
        ∈ (merge_user_accounts c1db c1src c1tgt).processes ∧
      ({ id := 4, user_id := 2, company_name := "Meta", position := none } : Process)
        ∈ (merge_user_accounts c1db c1src c1tgt).processes ∧
      ((merge_user_accounts c1db c1src c1tgt).processes.filter
          (fun p => p.user_id == 2)).length = 4 := by
  decide

/-- C1 (amended): during merge(source, target), a target process is treated as
a duplicate (deleted) exactly when some source process agrees with it on
(lower(company_name), position) with the position compared verbatim —
case-sensitively, with null matching only null and no whitespace
normalisation (auth.py lines 210, 215, 219). -/
theorem c1_amended_theorem (db : DB) (src tgt : User) (hne : src.id ≠ tgt.id)
    (hpid : db.processes.Pairwise (fun p q => p.id ≠ q.id))
    (hkeys : keysDistinct (targetProcs db tgt.id))
    (tp : Process) (htp : tp ∈ db.processes) (htpo : tp.user_id = tgt.id) :
    tp ∉ (merge_user_accounts db src tgt).processes ↔
      ∃ sp ∈ db.processes, sp.user_id = src.id ∧
        pyLower sp.company_name = pyLower tp.company_name ∧ sp.position = tp.position := by
  constructor
  · intro hnot
    by_contra hnc
    apply hnot
    apply uncollided_target_kept db src tgt hne hpid htp htpo
    intro sp hsp hspo hkeyeq
    exact hnc ⟨sp, hsp, hspo, congrArg Prod.fst hkeyeq, congrArg Prod.snd hkeyeq⟩
  · rintro ⟨sp, hsp, hspo, hc, hp⟩
    exact (collided_target_deleted db src tgt hne hpid hkeys hsp hspo htp htpo
      (by simp [processKey, hc, hp])).1

/-- C1 amended witness: in c5db the colliding target process 2 is deleted and
the non-colliding target process 3 is kept, matching the verbatim-position
criterion. -/
theorem c1_amended_witness :
    c1src.id ≠ c1tgt.id ∧
      c5db.processes.Pairwise (fun p q => p.id ≠ q.id) ∧
      keysDistinct (targetProcs c5db c1tgt.id) ∧
      (({ id := 2, user_id := 2, company_name := "Acme", position := some "SDE" } : Process)
          ∈ c5db.processes) ∧
      (({ id := 2, user_id := 2, company_name := "Acme", position := some "SDE" } : Process)
          ∉ (merge_user_accounts c5db c1src c1tgt).processes ↔
        ∃ sp ∈ c5db.processes, sp.user_id = c1src.id ∧
          pyLower sp.company_name = pyLower "Acme" ∧ sp.position = some "SDE") :=
  ⟨by decide, by decide, by decide, by decide,
    c1_amended_theorem c5db c1src c1tgt (by decide) (by decide) (by decide)
      { id := 2, user_id := 2, company_name := "Acme", position := some "SDE" }
      (by decide) (by decide)⟩

/-- C2 counterexample: merge_user_accounts persists two separate commits
(auth.py lines 238 and 242).  On c2db the first committed state is neither the
initial nor the final store: the process and feedback rows are already
re-parented onto the target while the source user row is still present — a
persisted partially-merged state, contradicting single-transaction
atomicity. -/
theorem c2_counterexample :
    mergeCommits c2db c2src c2tgt =
        [mergeCommitted1 c2db c2src c2tgt, merge_user_accounts c2db c2src c2tgt] ∧
      mergeCommitted1 c2db c2src c2tgt ≠ c2db ∧
      mergeCommitted1 c2db c2src c2tgt ≠ merge_user_accounts c2db c2src c2tgt ∧
      c2src ∈ (mergeCommitted1 c2db c2src c2tgt).users ∧
      (∀ p ∈ (mergeCommitted1 c2db c2src c2tgt).processes, p.user_id = c2tgt.id) := by
  decide

/-- C2 (amended): the merge runs as two transactions — steps 1-3 (re-key,
re-parent, feedback transfer) are committed first (auth.py line 238), then the
source row is deleted and committed (line 242).  A failure between the two
commits leaves the re-parented rows persisted with the emptied source user
still present; only the second commit removes it. -/
theorem c2_amended_theorem (db : DB) (src tgt : User) (hne : src.id ≠ tgt.id)
    (hsrc : src ∈ db.users) :
    mergeCommits db src tgt =
        [mergeCommitted1 db src tgt, deleteUser (mergeCommitted1 db src tgt) src.id] ∧
      src ∈ (mergeCommitted1 db src tgt).users ∧
      (∀ p ∈ (mergeCommitted1 db src tgt).processes, p.user_id ≠ src.id) ∧
      merge_user_accounts db src tgt = deleteUser (mergeCommitted1 db src tgt) src.id := by
  refine ⟨rfl, ?_, ?_, rfl⟩
  · rw [mergeCommitted1_users]
    exact hsrc
  · exact mergeCommitted1_not_src_owned db src tgt hne

/-- C2 amended witness: the two-commit structure evaluated on c2db. -/
theorem c2_amended_witness :
    c2src.id ≠ c2tgt.id ∧ c2src ∈ c2db.users ∧
      (mergeCommits c2db c2src c2tgt =
          [mergeCommitted1 c2db c2src c2tgt, deleteUser (mergeCommitted1 c2db c2src c2tgt) c2src.id] ∧
        c2src ∈ (mergeCommitted1 c2db c2src c2tgt).users ∧
        (∀ p ∈ (mergeCommitted1 c2db c2src c2tgt).processes, p.user_id ≠ c2src.id) ∧
        merge_user_accounts c2db c2src c2tgt =
          deleteUser (mergeCommitted1 c2db c2src c2tgt) c2src.id) :=
  ⟨by decide, by decide, c2_amended_theorem c2db c2src c2tgt (by decide) (by decide)⟩

/-- C3 failing input: user 1 already has email old@x.com and discord id "1";
the Discord callback with no explicit target and an unowned provider email
new@y.com takes the ghost-promotion branch (routes/auth.py line 318) and
overwrites the non-null email — the linking flow changed a set email. -/
theorem c3_failing_eval :
    (∃ u ∈ c3db.users, u.id = 1 ∧ u.email = some "old@x.com") ∧
      (discord_oauth_callback c3db "1" "alice" "new@y.com" none).1.users =
        [{ id := 1, discord_id := some "1", google_id := none, email := some "new@y.com",
           username := "alice" }] ∧
      (discord_oauth_callback c3db "1" "alice" "new@y.com" none).2 = Except.ok 1 := by
  decide

/-- C4 failing input: with target A (id 1, email a@x.com) and the provider
email b@y.com owned by B (id 2), the explicit-target callback raises the
intended 400 conflict, but the blanket except Exception (routes/auth.py lines
367-371) rewraps it as HTTP 500; the authenticated /auth/discord/link endpoint
re-raises the same conflict as HTTP 400 (lines 475-476).  In both flows no row
of A or B is mutated. -/
theorem c4_failing_eval :
    discord_oauth_callback c4db "77" "u" "b@y.com" (some 1) =
        (c4db, Except.error (HttpError.mk 500 "Discord OAuth error: 400: Discord email (b@y.com) is already associated with another account. Please use a different Discord account or contact support.")) ∧
      link_discord_account c4db 1 "77" "b@y.com" =
        (c4db, Except.error (HttpError.mk 400 "Discord email (b@y.com) is already associated with another account. Please use a different Discord account or contact support.")) := by
  decide

/-- C5: during merge(source, target) every source process whose key collides
with a target process wins — the target's colliding process is deleted with
its stages and the source's process is re-parented; source processes are
re-parented with all other columns unchanged, and target processes with no
colliding source key survive untouched. -/
theorem c5_source_wins (db : DB) (src tgt : User) (hne : src.id ≠ tgt.id)
    (hpid : db.processes.Pairwise (fun p q => p.id ≠ q.id))
    (hkeys : keysDistinct (targetProcs db tgt.id)) :
    (∀ sp ∈ db.processes, sp.user_id = src.id →
        ({ sp with user_id := tgt.id } ∈ (merge_user_accounts db src tgt).processes) ∧
        (∀ tp ∈ db.processes, tp.user_id = tgt.id → processKey tp = processKey sp →
          tp ∉ (merge_user_accounts db src tgt).processes ∧
            ∀ s ∈ db.stages, s.process_id = tp.id →
              s ∉ (merge_user_accounts db src tgt).stages)) ∧
      (∀ tp ∈ db.processes, tp.user_id = tgt.id →
        (∀ sp ∈ db.processes, sp.user_id = src.id → processKey sp ≠ processKey tp) →
        tp ∈ (merge_user_accounts db src tgt).processes) := by
  constructor
  · intro sp hsp hspo
    refine ⟨source_process_reparented db src tgt hne hpid hsp hspo, ?_⟩
    intro tp htp htpo hk
    exact collided_target_deleted db src tgt hne hpid hkeys hsp hspo htp htpo hk.symm
  · intro tp htp htpo hnc
    exact uncollided_target_kept db src tgt hne hpid htp htpo hnc

/-- C5 witness: in c5db the colliding target process 2 (with its stage) is
deleted, the source process 1 is re-parented intact, and target process 3
survives. -/
theorem c5_witness :
    c1src.id ≠ c1tgt.id ∧
      c5db.processes.Pairwise (fun p q => p.id ≠ q.id) ∧
      keysDistinct (targetProcs c5db c1tgt.id) ∧
      ((∀ sp ∈ c5db.processes, sp.user_id = c1src.id →
          ({ sp with user_id := c1tgt.id } ∈ (merge_user_accounts c5db c1src c1tgt).processes) ∧
          (∀ tp ∈ c5db.processes, tp.user_id = c1tgt.id → processKey tp = processKey sp →
            tp ∉ (merge_user_accounts c5db c1src c1tgt).processes ∧
              ∀ s ∈ c5db.stages, s.process_id = tp.id →
                s ∉ (merge_user_accounts c5db c1src c1tgt).stages)) ∧
        (∀ tp ∈ c5db.processes, tp.user_id = c1tgt.id →
          (∀ sp ∈ c5db.processes, sp.user_id = c1src.id → processKey sp ≠ processKey tp) →
          tp ∈ (merge_user_accounts c5db c1src c1tgt).processes)) :=
  ⟨by decide, by decide, by decide,
    c5_source_wins c5db c1src c1tgt (by decide) (by decide) (by decide)⟩

/-- C8 failing input: with an empty registry and no provider email, both
callbacks refuse to create an account and no row is created, but the
deliberately raised 400 is rewrapped as HTTP 500 by the blanket except
Exception (routes/auth.py lines 367-371 and 682-686); with an email supplied a
new user holding both the provider id and the email is created. -/
theorem c8_failing_eval :
    discord_oauth_callback dbEmpty "9" "bob" "" none =
        (dbEmpty, Except.error (HttpError.mk 500 "Discord OAuth error: 400: Discord account email not available")) ∧
      google_oauth_callback dbEmpty "g9" "carol" "" none =
        (dbEmpty, Except.error (HttpError.mk 500 "Google OAuth error: 400: Google account email not available")) ∧
      (discord_oauth_callback dbEmpty "9" "bob" "bob@x.com" none).1.users =
        [{ id := 1, discord_id := some "9", google_id := none, email := some "bob@x.com",
           username := "bob" }] ∧
      (discord_oauth_callback dbEmpty "9" "bob" "bob@x.com" none).2 = Except.ok 1 ∧
      (google_oauth_callback dbEmpty "g9" "carol" "carol@x.com" none).1.users =
        [{ id := 1, discord_id := none, google_id := some "g9", email := some "carol@x.com",
           username := "carol" }] := by
  decide

/-- C9: merge_user_accounts never touches any column of the target user row —
the target row survives verbatim; its complete effect is: the source user row
deleted, colliding target processes deleted together with exactly their
stages, every surviving process either untouched or re-parented (user_id only)
onto the target, and feedback re-parented wholesale. -/
theorem c9_merge_frame (db : DB) (src tgt : User) (hne : src.id ≠ tgt.id)
    (htgt : tgt ∈ db.users) :
    tgt ∈ (merge_user_accounts db src tgt).users ∧
      (merge_user_accounts db src tgt).users = db.users.filter (fun u => u.id != src.id) ∧
      (merge_user_accounts db src tgt).processes =
        db.processes.filterMap
          (loopResultEntry tgt.id (targetProcs db tgt.id) (sourceProcs db src.id)) ∧
      (merge_user_accounts db src tgt).stages =
        db.stages.filter
          (fun s => !(hitBy (targetProcs db tgt.id) (sourceProcs db src.id) s.process_id)) ∧
      (merge_user_accounts db src tgt).feedback =
        db.feedback.map
          (fun f => if f.user_id == some src.id then { f with user_id := some tgt.id } else f) ∧
      (merge_user_accounts db src tgt).nextUserId = db.nextUserId := by
  have h := merge_spec db src tgt hne
  exact ⟨merge_mem_users htgt (Ne.symm hne), h.1, h.2.1, h.2.2.1, h.2.2.2.1, h.2.2.2.2⟩

/-- C9 witness: the frame conditions evaluated on c2db. -/
theorem c9_witness :
    c2src.id ≠ c2tgt.id ∧ c2tgt ∈ c2db.users ∧
      (c2tgt ∈ (merge_user_accounts c2db c2src c2tgt).users ∧
        (merge_user_accounts c2db c2src c2tgt).users =
          c2db.users.filter (fun u => u.id != c2src.id) ∧
        (merge_user_accounts c2db c2src c2tgt).processes =
          c2db.processes.filterMap
            (loopResultEntry c2tgt.id (targetProcs c2db c2tgt.id) (sourceProcs c2db c2src.id)) ∧
        (merge_user_accounts c2db c2src c2tgt).stages =
          c2db.stages.filter
            (fun s => !(hitBy (targetProcs c2db c2tgt.id) (sourceProcs c2db c2src.id) s.process_id)) ∧
        (merge_user_accounts c2db c2src c2tgt).feedback =
          c2db.feedback.map
            (fun f => if f.user_id == some c2src.id then { f with user_id := some c2tgt.id } else f) ∧
        (merge_user_accounts c2db c2src c2tgt).nextUserId = c2db.nextUserId) :=
  ⟨by decide, by decide, c9_merge_frame c2db c2src c2tgt (by decide) (by decide)⟩

/-- C10 failing input: the claim says a user without a stored password (the
ghost account of c10db) is rejected by the password login path with HTTP 401.
api/models.py declares no hashed_password column, so for any found user the
read user.hashed_password at api/auth.py line 113 raises AttributeError, and
login — which has no exception handler — answers an unhandled HTTP 500, never
the claimed 401. -/
theorem c10_failing_eval :
    c10ghost ∈ c10db.users ∧
      lookupByIdentifier c10db "ghost" = some c10ghost ∧
      authenticate_user c10db "ghost" "pw" = Except.error PyExc.attributeError ∧
      login c10db "ghost" "pw" =
        Except.error { status := 500, detail := "Internal Server Error" } := by
  decide

/-- C7 failing input: the claim says the bot-token get-or-create always
succeeds and creates the ghost row on first call.  api/models.py declares no
hashed_password column, so the constructor call User(..., hashed_password=None)
at routes/auth.py line 710 raises TypeError before db.add runs: on the empty
store the call — and any repeat of it — answers an unhandled HTTP 500 and
persists nothing, so no ghost account is ever created.  The existing-row
branch still behaves as claimed: on c7db both calls return the same id 1, one
row holds the discord id, and the stored username is refreshed. -/
theorem c7_failing_eval :
    get_discord_bot_token dbEmpty "123" "alice" = (dbEmpty, Except.error PyExc.typeError) ∧
      discord_bot_token_route dbEmpty "123" "alice" =
        (dbEmpty, Except.error { status := 500, detail := "Internal Server Error" }) ∧
      discord_bot_token_route dbEmpty "123" "bob" =
        (dbEmpty, Except.error { status := 500, detail := "Internal Server Error" }) ∧
      (discord_bot_token_route c7db "123" "bob").2 = Except.ok 1 ∧
      (discord_bot_token_route (discord_bot_token_route c7db "123" "bob").1 "123" "bob").2 =
        Except.ok 1 ∧
      (discord_bot_token_route (discord_bot_token_route c7db "123" "bob").1 "123" "bob").1.users =
        [{ id := 1, discord_id := some "123", google_id := none, email := none,
           username := "bob" }] := by
  decide

/-- C6: under serial execution every modelled auth operation — the two OAuth
callbacks, the authenticated link endpoint, the bot-token ghost creation and a
merge of two distinct existing users — preserves the invariant that at most
one user row holds a given non-null discord_id, google_id or email, together
with structural well-formedness of the store. -/
theorem c6_key_uniqueness_preserved (db : DB) (op : AuthOp)
    (hWF : WF db) (hInv : KeyInv db) :
    KeyInv (applyAuthOp db op) ∧ WF (applyAuthOp db op) := by
  have h := wf_keyInv_applyAuthOp db op hWF hInv
  exact ⟨h.2, h.1⟩

/-- C6 witness: a Discord callback on c4db that attaches the provider id to
the account owning the provider email. -/
theorem c6_witness :
    WF c4db ∧ KeyInv c4db ∧
      (KeyInv (applyAuthOp c4db (AuthOp.discordCallback "7" "dave" "a@x.com" none)) ∧
        WF (applyAuthOp c4db (AuthOp.discordCallback "7" "dave" "a@x.com" none))) :=
  ⟨by decide, by decide,
    c6_key_uniqueness_preserved c4db (AuthOp.discordCallback "7" "dave" "a@x.com" none)
      (by decide) (by decide)⟩

end ProcessTracker
